import Mathlib

/-!
# Hexahedron renderer: batching, camera, frame lifecycle and cube batches

A shallow embedding of `Renderer.cpp`, `Camera.cpp` and `CubeBatch.cpp`.  Pointers
(`Material*`, `Mesh*`) and GL object names are natural numbers, `glm::mat4` values that the
renderer only moves around are an abstract type `μ`, and every GL / GLFW / ImGui call the code
makes is recorded as one entry of a call trace.  Camera arithmetic is exact, over a field; the
`float` results that `AddCube` stores pass through a rounding function, `roundFloat32` for the
real format.  `unsigned int` arithmetic wraps modulo `2 ^ 32` as the language defines it; container
sizes converted to `GLsizei`, where the result out of range is left to the implementation, are
taken to be in range.
-/

namespace Hex

/-! ## Draw items and the comparator of `RenderSceneBatched` -/

/-- Local `struct Item { Material* mat; Mesh* mesh; glm::mat4 model; }` of `RenderSceneBatched`. -/
structure Item (μ : Type) where
  mat : Nat
  mesh : Nat
  model : μ
deriving DecidableEq, Repr

/-- The `(material, mesh)` pair of an item. -/
def Item.key {μ : Type} (it : Item μ) : Nat × Nat := (it.mat, it.mesh)

/-- The lambda handed to `std::sort` in `RenderSceneBatched`:
`if (a.mat != b.mat) return a.mat < b.mat; return a.mesh < b.mesh;`. -/
def itemLess {μ : Type} (a b : Item μ) : Bool :=
  if a.mat ≠ b.mat then decide (a.mat < b.mat) else decide (a.mesh < b.mesh)

/-- What the C++ standard promises of `std::sort(first, last, comp)`: the range is rearranged
(a permutation) and afterwards no later element compares less than an earlier one.  The order of
equivalent elements is left open, so the renderer is modelled against any such sort. -/
structure StdSort (α : Type) (less : α → α → Bool) where
  sort : List α → List α
  perm : ∀ l, (sort l).Perm l
  sorted : ∀ l, (sort l).Pairwise (fun a b => less b a = false)

/-- The fields of `Mesh` that the renderer reads. -/
structure Mesh where
  VAO : Nat
  instanceVBO : Nat
  indexCount : Nat
deriving DecidableEq, Repr

/-! ## GL call trace -/

/-- Capabilities toggled with `glEnable` / `glDisable`. -/
inductive Cap where
  | depthTest
  | polygonOffsetFill
  | cullFace
deriving DecidableEq, Repr

/-- Argument of `glCullFace`. -/
inductive Face where
  | front
  | back
deriving DecidableEq, Repr

/-- Names of the shader uniforms set by the renderer. -/
inductive Uniform where
  | light_view
  | light_projection
  | light_space_matrix
  | should_shade
  | shadow_map
deriving DecidableEq, Repr

/-- One call made by the renderer, in the order the code makes it. -/
inductive GLCall (μ : Type) where
  | bindFramebuffer (fbo : Nat)
  | viewport (w h : Int)
  | clearColor
  | clear (color depth : Bool)
  | enable (cap : Cap)
  | disable (cap : Cap)
  | polygonOffset
  | cullFace (mode : Face)
  | drawBufferNone
  | shaderBind (shader : Nat)
  | shaderUnbind
  | setUniformMat4 (shader : Nat) (name : Uniform) (value : μ)
  | setUniform1i (shader : Nat) (name : Uniform) (value : Int)
  | bindArrayBuffer (vbo : Nat)
  | bufferData (count : Nat) (data : List μ)
  | materialApply (mat : Nat)
  | activeTexture (unit : Nat)
  | bindTexture (tex : Nat)
  | bindVertexArray (vao : Nat)
  | drawElementsInstanced (indexCount : Nat) (instanceCount : Nat)
  | drawArrays (count : Nat)
  | deleteFramebuffer (fbo : Nat)
  | deleteTexture (tex : Nat)
  | deleteRenderbuffer (rbo : Nat)
  | genFramebuffer (fbo : Nat)
  | genTexture (tex : Nat)
  | genRenderbuffer (rbo : Nat)
  | texImage2D (w h : Int)
  | framebufferTexture2D (tex : Nat)
  | bindRenderbuffer (rbo : Nat)
  | renderbufferStorage (w h : Int)
  | framebufferRenderbuffer (rbo : Nat)
  | texParameteri
  | log
deriving DecidableEq, Repr

/-- What the batched pass reads besides the items: the objects behind the `Mesh*` and `Material*`
pointers, the shadow-map texture and the two light matrices of `m_shadow_map`. -/
structure SceneCtx (μ : Type) where
  meshes : Nat → Mesh
  materialShader : Nat → Nat
  shadowTexture : Nat
  light_view : μ
  light_projection : μ

/-! ## The scan of `RenderSceneBatched` -/

/-- The inner `for (; j < items.size() && items[j].mat == mat && items[j].mesh == mesh; ++j)
models.push_back(items[j].model);` run on the items from `idx` on: the collected matrices and the
items from `j` on. -/
def collectModels {μ : Type} (mat mesh : Nat) : List (Item μ) → List μ × List (Item μ)
  | [] => ([], [])
  | it :: rest =>
    if it.mat = mat ∧ it.mesh = mesh then
      ((it.model :: (collectModels mat mesh rest).1), (collectModels mat mesh rest).2)
    else ([], it :: rest)

/-- The locals of one iteration of the outer `while (idx < items.size())`: `mat`, `mesh`, the
vector `models` and `instanceCount = GLsizei(models.size())`.  Vector sizes are taken to fit a
`GLsizei`, so the conversion is the identity. -/
structure Batch (μ : Type) where
  mat : Nat
  mesh : Nat
  models : List μ
  instanceCount : Nat
deriving DecidableEq, Repr

/-- The `(material, mesh)` pair a batch was opened with. -/
def Batch.key {μ : Type} (b : Batch μ) : Nat × Nat := (b.mat, b.mesh)

/-- The outer `while (idx < items.size())` on the items from `idx` on, with an iteration budget. -/
def batchLoopFuel {μ : Type} : Nat → List (Item μ) → List (Batch μ)
  | 0, _ => []
  | _ + 1, [] => []
  | fuel + 1, it :: rest =>
    { mat := it.mat, mesh := it.mesh,
      models := (collectModels it.mat it.mesh (it :: rest)).1,
      instanceCount := (collectModels it.mat it.mesh (it :: rest)).1.length }
      :: batchLoopFuel fuel (collectModels it.mat it.mesh (it :: rest)).2

/-- The outer loop: every iteration consumes at least `items[idx]`, so `items.size()` iterations
are always enough (`batchLoop_cons` below). -/
def batchLoop {μ : Type} (items : List (Item μ)) : List (Batch μ) :=
  batchLoopFuel items.length items

/-- The body of the outer loop after the matrices are collected: upload, material, uniforms, draw. -/
def drawBatch {μ : Type} [Mul μ] (ctx : SceneCtx μ) (b : Batch μ) : List (GLCall μ) :=
  [ GLCall.bindArrayBuffer (ctx.meshes b.mesh).instanceVBO,
    GLCall.bufferData b.instanceCount b.models,
    GLCall.materialApply b.mat,
    GLCall.setUniformMat4 (ctx.materialShader b.mat) Uniform.light_space_matrix
      (ctx.light_projection * ctx.light_view),
    GLCall.setUniform1i (ctx.materialShader b.mat) Uniform.should_shade 1,
    GLCall.activeTexture 5,
    GLCall.bindTexture ctx.shadowTexture,
    GLCall.setUniform1i (ctx.materialShader b.mat) Uniform.shadow_map 5,
    GLCall.bindVertexArray (ctx.meshes b.mesh).VAO,
    GLCall.drawElementsInstanced (ctx.meshes b.mesh).indexCount b.instanceCount,
    GLCall.bindVertexArray 0 ]

/-- `RenderSceneBatched` from the gathered item list on: early return on an empty list, else
sort, scan and draw, then `Shader::Unbind()`. -/
def drawItems {μ : Type} [Mul μ] (S : StdSort (Item μ) itemLess) (ctx : SceneCtx μ)
    (items : List (Item μ)) : List (GLCall μ) :=
  if items.isEmpty then []
  else (batchLoop (S.sort items)).flatMap (drawBatch ctx) ++ [GLCall.shaderUnbind]

/-! ## Reading a trace -/

/-- The arrays handed to the GPU by the `glBufferData` calls of a trace: the first `count`
matrices of the source array each time. -/
def uploads {μ : Type} : List (GLCall μ) → List (List μ)
  | [] => []
  | GLCall.bufferData n data :: t => data.take n :: uploads t
  | _ :: t => uploads t

/-- The instance counts of the `glDrawElementsInstanced` calls of a trace. -/
def drawCounts {μ : Type} : List (GLCall μ) → List Nat
  | [] => []
  | GLCall.drawElementsInstanced _ c :: t => c :: drawCounts t
  | _ :: t => drawCounts t

/-- One consumed upload: the buffer it went to, the matrices uploaded, and the vertex array,
index count and instance count of the instanced draw that followed. -/
structure InstancedDraw (μ : Type) where
  vbo : Nat
  data : List μ
  vao : Nat
  indexCount : Nat
  instanceCount : Nat
deriving DecidableEq, Repr

/-- State of the trace reader: the bound array buffer, the bound vertex array, and the upload
that no draw has consumed yet. -/
structure PairState (μ : Type) where
  boundVbo : Nat
  boundVao : Nat
  pending : Option (Nat × List μ)

/-- Pairs every instance-buffer upload of a trace with the instanced draw that consumes it.
The result is `none` when an upload is followed by another upload before any draw, when a draw
has no upload pending, or when the trace ends with an upload never drawn. -/
def pairUploads {μ : Type} : PairState μ → List (GLCall μ) → Option (List (InstancedDraw μ))
  | st, [] => if st.pending.isNone then some [] else none
  | st, GLCall.bindArrayBuffer v :: t => pairUploads { st with boundVbo := v } t
  | st, GLCall.bindVertexArray v :: t => pairUploads { st with boundVao := v } t
  | st, GLCall.bufferData n data :: t =>
    match st.pending with
    | some _ => none
    | none => pairUploads { st with pending := some (st.boundVbo, data.take n) } t
  | st, GLCall.drawElementsInstanced ic c :: t =>
    match st.pending with
    | none => none
    | some (v, ms) =>
      (pairUploads { st with pending := none } t).map
        (fun ds => { vbo := v, data := ms, vao := st.boundVao, indexCount := ic,
                     instanceCount := c } :: ds)
  | st, _ :: t => pairUploads st t

/-! ## The shadow pass -/

/-- Local `struct Item { Mesh* mesh; glm::mat4 model; }` of `RenderShadowMap`. -/
structure ShadowItem (μ : Type) where
  mesh : Nat
  model : μ
deriving DecidableEq, Repr

/-- The lambda handed to `std::sort` in `RenderShadowMap`: `a.mesh < b.mesh`. -/
def shadowLess {μ : Type} (a b : ShadowItem μ) : Bool := decide (a.mesh < b.mesh)

/-- One entity of the registry with the components the renderer queries:
`TransformComponent::GetMatrix()`, the `Mesh*` of a `MeshComponent`, the sub-meshes
`model->GetMeshes()` of a `ModelComponent`, the `Material*` of a `MaterialComponent`. -/
structure Entity (μ : Type) where
  transform : Option μ
  mesh : Option Nat
  model : Option (List Nat)
  material : Option Nat
deriving DecidableEq, Repr

/-- The first gather loop of `RenderShadowMap`, over `view<TransformComponent, MeshComponent>`. -/
def gatherShadowMeshes {μ : Type} : List (Entity μ) → List (ShadowItem μ)
  | [] => []
  | e :: es =>
    match e.transform, e.mesh with
    | some tc, some mc => { mesh := mc, model := tc } :: gatherShadowMeshes es
    | _, _ => gatherShadowMeshes es

/-- The second gather loop of `RenderShadowMap`, over `view<TransformComponent, ModelComponent>`:
one item per sub-mesh. -/
def gatherShadowModels {μ : Type} : List (Entity μ) → List (ShadowItem μ)
  | [] => []
  | e :: es =>
    match e.transform, e.model with
    | some tc, some subs =>
      subs.map (fun sub => { mesh := sub, model := tc }) ++ gatherShadowModels es
    | _, _ => gatherShadowModels es

/-- The inner `for (; j < items.size() && items[j].mesh == mesh; ++j)` of `RenderShadowMap`. -/
def collectShadowModels {μ : Type} (mesh : Nat) :
    List (ShadowItem μ) → List μ × List (ShadowItem μ)
  | [] => ([], [])
  | it :: rest =>
    if it.mesh = mesh then
      ((it.model :: (collectShadowModels mesh rest).1), (collectShadowModels mesh rest).2)
    else ([], it :: rest)

/-- The locals of one iteration of the outer loop of `RenderShadowMap`. -/
structure ShadowBatch (μ : Type) where
  mesh : Nat
  models : List μ
deriving DecidableEq, Repr

/-- The outer `while (idx < items.size())` of `RenderShadowMap`, with an iteration budget. -/
def shadowLoopFuel {μ : Type} : Nat → List (ShadowItem μ) → List (ShadowBatch μ)
  | 0, _ => []
  | _ + 1, [] => []
  | fuel + 1, it :: rest =>
    { mesh := it.mesh, models := (collectShadowModels it.mesh (it :: rest)).1 }
      :: shadowLoopFuel fuel (collectShadowModels it.mesh (it :: rest)).2

/-- The outer loop of `RenderShadowMap`; `items.size()` iterations are always enough. -/
def shadowLoop {μ : Type} (items : List (ShadowItem μ)) : List (ShadowBatch μ) :=
  shadowLoopFuel items.length items

/-- The upload and the instanced draw of one shadow batch. -/
def drawShadowBatch {μ : Type} (meshes : Nat → Mesh) (b : ShadowBatch μ) : List (GLCall μ) :=
  [ GLCall.bindArrayBuffer (meshes b.mesh).instanceVBO,
    GLCall.bufferData b.models.length b.models,
    GLCall.bindArrayBuffer 0,
    GLCall.bindVertexArray (meshes b.mesh).VAO,
    GLCall.drawElementsInstanced (meshes b.mesh).indexCount b.models.length,
    GLCall.bindVertexArray 0 ]

/-- The member `m_shadow_map`. -/
structure ShadowMap (μ : Type) where
  fbo : Nat
  texture : Nat
  shadow_width : Int
  shadow_height : Int
  light_view : μ
  light_projection : μ

/-- What `RenderShadowMap` takes from outside the renderer: the mesh objects, the shader returned
by `ShaderManager::GetOrCreateShader`, the values of `glm::lookAt(shadowCamPos, center, up)` and
`glm::ortho(-R, R, R, -R, 0.1f, 2.0f*R)` for the current light direction, and the size reported
by `glfwGetFramebufferSize`. -/
structure ShadowEnv (μ : Type) where
  meshes : Nat → Mesh
  shadow_shader : Nat
  lookAt : μ
  ortho : μ
  windowWidth : Int
  windowHeight : Int

/-- `Renderer::RenderShadowMap`: the updated `m_shadow_map` and the calls made. -/
def RenderShadowMap {μ : Type} (S : StdSort (ShadowItem μ) shadowLess) (env : ShadowEnv μ)
    (registry : List (Entity μ)) (sm : ShadowMap μ) : ShadowMap μ × List (GLCall μ) :=
  let sm1 : ShadowMap μ := { sm with light_view := env.lookAt, light_projection := env.ortho }
  let setup : List (GLCall μ) :=
    [ GLCall.bindFramebuffer sm.fbo,
      GLCall.viewport sm.shadow_width sm.shadow_height,
      GLCall.clear false true,
      GLCall.enable Cap.depthTest,
      GLCall.enable Cap.polygonOffsetFill,
      GLCall.polygonOffset,
      GLCall.cullFace Face.front,
      GLCall.enable Cap.cullFace,
      GLCall.drawBufferNone,
      GLCall.shaderBind env.shadow_shader,
      GLCall.setUniformMat4 env.shadow_shader Uniform.light_view sm1.light_view,
      GLCall.setUniformMat4 env.shadow_shader Uniform.light_projection sm1.light_projection ]
  let items := gatherShadowMeshes registry ++ gatherShadowModels registry
  if items.isEmpty then
    (sm1, setup ++
      [ GLCall.cullFace Face.back,
        GLCall.disable Cap.cullFace,
        GLCall.disable Cap.polygonOffsetFill,
        GLCall.bindFramebuffer 0 ])
  else
    (sm1, setup ++ (shadowLoop (S.sort items)).flatMap (drawShadowBatch env.meshes) ++
      [ GLCall.shaderUnbind,
        GLCall.cullFace Face.back,
        GLCall.disable Cap.cullFace,
        GLCall.disable Cap.polygonOffsetFill,
        GLCall.bindFramebuffer 0,
        GLCall.viewport env.windowWidth env.windowHeight ])

/-- The part of the GL context state that the shadow pass changes. -/
structure GLState where
  framebuffer : Nat
  viewport : Int × Int
  cullFaceMode : Face
  cullFaceEnabled : Bool
  polygonOffsetFill : Bool
  depthTest : Bool
  drawBufferNone : Bool
deriving DecidableEq, Repr

/-- Effect of one call on the tracked GL state. -/
def GLState.step {μ : Type} (s : GLState) : GLCall μ → GLState
  | GLCall.bindFramebuffer f => { s with framebuffer := f }
  | GLCall.viewport w h => { s with viewport := (w, h) }
  | GLCall.cullFace m => { s with cullFaceMode := m }
  | GLCall.enable Cap.cullFace => { s with cullFaceEnabled := true }
  | GLCall.disable Cap.cullFace => { s with cullFaceEnabled := false }
  | GLCall.enable Cap.polygonOffsetFill => { s with polygonOffsetFill := true }
  | GLCall.disable Cap.polygonOffsetFill => { s with polygonOffsetFill := false }
  | GLCall.enable Cap.depthTest => { s with depthTest := true }
  | GLCall.disable Cap.depthTest => { s with depthTest := false }
  | GLCall.drawBufferNone => { s with drawBufferNone := true }
  | _ => s

/-- GL state after a whole trace. -/
def GLState.run {μ : Type} (s : GLState) (trace : List (GLCall μ)) : GLState :=
  trace.foldl GLState.step s

/-! ## Camera -/

/-- A `glm::vec3`. -/
structure Vec3 (K : Type) where
  x : K
  y : K
  z : K
deriving DecidableEq, Repr

/-- A `glm::vec4`. -/
structure Vec4 (K : Type) where
  x : K
  y : K
  z : K
  w : K
deriving DecidableEq, Repr

/-- A `glm::mat4`, column-major as in glm: `m[i]` is column `i` and `m[i][j]` its component `j`. -/
structure Mat4 (K : Type) where
  c0 : Vec4 K
  c1 : Vec4 K
  c2 : Vec4 K
  c3 : Vec4 K
deriving DecidableEq, Repr

/-- The transcendental functions of the C library that the camera calls. -/
structure Libm (K : Type) where
  sin : K → K
  cos : K → K
  tan : K → K
  inversesqrt : K → K

/-- The `glm::mat4(1.0f)` identity matrix. -/
def Mat4.one {K : Type} [Field K] : Mat4 K :=
  { c0 := ⟨1, 0, 0, 0⟩, c1 := ⟨0, 1, 0, 0⟩, c2 := ⟨0, 0, 1, 0⟩, c3 := ⟨0, 0, 0, 1⟩ }

/-- The `glm::radians` conversion: degrees times the constant glm uses for pi / 180. -/
def radians {K : Type} [Field K] (degrees : K) : K :=
  degrees * (1745329251994329576923690768489 / 100000000000000000000000000000000)

/-- The glm function `perspective(fovy, aspect, zNear, zFar)` in its default right-handed,
[-1, 1] depth form: all entries zero except the five assigned ones. -/
def perspective {K : Type} [Field K] (m : Libm K) (fovy aspect zNear zFar : K) : Mat4 K :=
  { c0 := ⟨1 / (aspect * m.tan (fovy / 2)), 0, 0, 0⟩,
    c1 := ⟨0, 1 / m.tan (fovy / 2), 0, 0⟩,
    c2 := ⟨0, 0, -(zFar + zNear) / (zFar - zNear), -1⟩,
    c3 := ⟨0, 0, -(2 * zFar * zNear) / (zFar - zNear), 0⟩ }

/-- The glm function `cross`. -/
def Vec3.cross {K : Type} [Field K] (a b : Vec3 K) : Vec3 K :=
  ⟨a.y * b.z - b.y * a.z, a.z * b.x - b.z * a.x, a.x * b.y - b.x * a.y⟩

/-- The glm function `normalize`: `v * inversesqrt(dot(v, v))`. -/
def Vec3.normalize {K : Type} [Field K] (m : Libm K) (v : Vec3 K) : Vec3 K :=
  ⟨v.x * m.inversesqrt (v.x * v.x + v.y * v.y + v.z * v.z),
   v.y * m.inversesqrt (v.x * v.x + v.y * v.y + v.z * v.z),
   v.z * m.inversesqrt (v.x * v.x + v.y * v.y + v.z * v.z)⟩

/-- The glm function `clamp(x, minVal, maxVal)`: `min(max(x, minVal), maxVal)`. -/
def clamp {K : Type} [LinearOrder K] (x lo hi : K) : K := min (max x lo) hi

/-- The data members of `Camera`. -/
structure Camera (K : Type) where
  m_position : Vec3 K
  m_forward : Vec3 K
  m_right : Vec3 K
  m_up : Vec3 K
  m_yaw : K
  m_pitch : K
  m_zoom : K
  m_aspect_ratio : K
  m_projection_matrix : Mat4 K
  m_mouse_sensitivity : K
  m_movement_speed : K
deriving DecidableEq, Repr

/-- `Camera::UpdateProjectionMatrix`. -/
def Camera.UpdateProjectionMatrix {K : Type} [Field K] (m : Libm K) (c : Camera K) : Camera K :=
  { c with m_projection_matrix := perspective m (radians c.m_zoom) c.m_aspect_ratio (1 / 10) 1000 }

/-- `Camera::UpdateCameraVectors`. -/
def Camera.UpdateCameraVectors {K : Type} [Field K] (m : Libm K) (c : Camera K) : Camera K :=
  let forward : Vec3 K :=
    Vec3.normalize m
      ⟨m.cos (radians c.m_yaw) * m.cos (radians c.m_pitch),
       m.sin (radians c.m_pitch),
       m.sin (radians c.m_yaw) * m.cos (radians c.m_pitch)⟩
  let right : Vec3 K := Vec3.normalize m (Vec3.cross forward ⟨0, 1, 0⟩)
  { c with m_forward := forward, m_right := right,
           m_up := Vec3.normalize m (Vec3.cross right forward) }

/-- `Camera::ProcessMouseInput(x_offset, y_offset, constrain_pitch)`. -/
def Camera.ProcessMouseInput {K : Type} [LinearOrderedField K] (m : Libm K) (c : Camera K)
    (x_offset y_offset : K) (constrain_pitch : Bool) : Camera K :=
  let x_offset := x_offset * c.m_mouse_sensitivity
  let y_offset := y_offset * c.m_mouse_sensitivity
  let c1 : Camera K := { c with m_yaw := c.m_yaw + x_offset, m_pitch := c.m_pitch + y_offset }
  let c2 : Camera K :=
    if constrain_pitch then
      let c3 : Camera K := if c1.m_pitch > 89 then { c1 with m_pitch := 89 } else c1
      if c3.m_pitch < -89 then { c3 with m_pitch := -89 } else c3
    else c1
  Camera.UpdateCameraVectors m c2

/-- `Camera::ProcessMouseScroll(yOffset)`. -/
def Camera.ProcessMouseScroll {K : Type} [LinearOrderedField K] (m : Libm K) (c : Camera K)
    (yOffset : K) : Camera K :=
  let c1 : Camera K := { c with m_zoom := c.m_zoom - yOffset }
  let c2 : Camera K := if c1.m_zoom < 1 then { c1 with m_zoom := 1 } else c1
  let c3 : Camera K := if c2.m_zoom > 90 then { c2 with m_zoom := 90 } else c2
  Camera.UpdateProjectionMatrix m c3

/-- `Camera::SetAspectRatio(aspect_ratio)`. -/
def Camera.SetAspectRatio {K : Type} [Field K] (m : Libm K) (c : Camera K) (aspect_ratio : K) :
    Camera K :=
  Camera.UpdateProjectionMatrix m { c with m_aspect_ratio := aspect_ratio }

/-- `Camera::GetProjectionMatrix`. -/
def Camera.GetProjectionMatrix {K : Type} (c : Camera K) : Mat4 K := c.m_projection_matrix

/-- A run of `ProcessMouseInput` calls, one per `(x_offset, y_offset)` pair, all with the same
`constrain_pitch`. -/
def Camera.mouseInputs {K : Type} [LinearOrderedField K] (m : Libm K) (constrain_pitch : Bool)
    (c : Camera K) (moves : List (K × K)) : Camera K :=
  moves.foldl (fun c mv => Camera.ProcessMouseInput m c mv.1 mv.2 constrain_pitch) c

/-! ## Off-screen framebuffer -/

/-- The member `m_frame_buffer`. -/
structure FrameBuffer where
  frame_buffer : Nat
  texture : Nat
  depth_render_buffer : Nat
  render_width : Int
  render_height : Int
deriving DecidableEq, Repr

/-- The renderer members that the framebuffer lifecycle touches, with `nextName` the next object
name the GL driver hands out from `glGen*`. -/
structure Renderer (K : Type) where
  m_frame_buffer : FrameBuffer
  m_camera : Camera K
  m_wireframe_mode : Bool
  nextName : Nat
deriving DecidableEq, Repr

/-- `Renderer::InitFrameBuffer(width, height)`: the renderer afterwards and the calls made.
`complete` is what `glCheckFramebufferStatus` answers; both answers only log. -/
def InitFrameBuffer {K μ : Type} [Field K] (m : Libm K) (complete : Bool) (width height : Int)
    (r : Renderer K) : Renderer K × List (GLCall μ) :=
  if width ≤ 0 ∨ height ≤ 0 then (r, [GLCall.log])
  else
    let fb := r.m_frame_buffer
    let cleanup : List (GLCall μ) :=
      (if fb.frame_buffer ≠ 0 then [GLCall.deleteFramebuffer fb.frame_buffer] else []) ++
      (if fb.texture ≠ 0 then [GLCall.deleteTexture fb.texture] else []) ++
      (if fb.depth_render_buffer ≠ 0 then [GLCall.deleteRenderbuffer fb.depth_render_buffer]
       else [])
    let fbo := r.nextName
    let tex := r.nextName + 1
    let rbo := r.nextName + 2
    let fb1 : FrameBuffer := { fb with frame_buffer := fbo, texture := tex,
                                       depth_render_buffer := rbo }
    let create : List (GLCall μ) :=
      [ GLCall.genFramebuffer fbo,
        GLCall.bindFramebuffer fbo,
        GLCall.genTexture tex,
        GLCall.bindTexture tex,
        GLCall.texImage2D width height,
        GLCall.texParameteri, GLCall.texParameteri, GLCall.texParameteri,
        GLCall.texParameteri, GLCall.texParameteri, GLCall.texParameteri,
        GLCall.framebufferTexture2D tex,
        GLCall.genRenderbuffer rbo,
        GLCall.bindRenderbuffer rbo,
        GLCall.renderbufferStorage width height,
        GLCall.framebufferRenderbuffer rbo,
        (if complete then GLCall.log else GLCall.log) ]
    ({ r with m_frame_buffer := fb1,
              m_camera := Camera.SetAspectRatio m r.m_camera
                ((fb1.render_width : K) / (fb1.render_height : K)),
              nextName := r.nextName + 3 },
     cleanup ++ create ++ [GLCall.bindFramebuffer 0])

/-- The viewport-panel block of `Renderer::ShowDebugUI`, with `newWidth`, `newHeight` the panel
size already converted to `int`. -/
def ShowDebugUI_viewport {K μ : Type} [Field K] (m : Libm K) (complete : Bool)
    (newWidth newHeight : Int) (r : Renderer K) : Renderer K × List (GLCall μ) :=
  if newWidth > 0 ∧ newHeight > 0 ∧
      (newWidth ≠ r.m_frame_buffer.render_width ∨ newHeight ≠ r.m_frame_buffer.render_height) then
    let r1 : Renderer K :=
      { r with m_frame_buffer :=
          { r.m_frame_buffer with render_width := newWidth, render_height := newHeight } }
    InitFrameBuffer m complete r1.m_frame_buffer.render_width r1.m_frame_buffer.render_height r1
  else (r, [])

/-- Whether a call deletes or allocates a GPU object or its storage. -/
def GLCall.isAllocOrDelete {μ : Type} : GLCall μ → Bool
  | GLCall.deleteFramebuffer _ => true
  | GLCall.deleteTexture _ => true
  | GLCall.deleteRenderbuffer _ => true
  | GLCall.genFramebuffer _ => true
  | GLCall.genTexture _ => true
  | GLCall.genRenderbuffer _ => true
  | GLCall.texImage2D _ _ => true
  | GLCall.renderbufferStorage _ _ => true
  | GLCall.bufferData _ _ => true
  | _ => false

/-! ## One frame -/

/-- The statements of `Renderer::Tick`, one constructor per call. -/
inductive Step where
  | cameraProcessKeyboardInput
  | cameraTick
  | BindWindowBuffer
  | StartImGuiFrame
  | UpdateRenderData
  | RenderShadowMap
  | BindFrameBuffer
  | RenderFullScreenQuad
  | RenderSceneBatched
  | unbindFramebuffer
  | ShowDebugUI
  | consoleRender
  | EndImGuiFrame
  | swapBuffers
deriving DecidableEq, Repr

/-- `Renderer::Tick`: the calls it makes, in program order, for the value of `m_wireframe_mode`
at the start of the frame (nothing before `ShowDebugUI` writes that member). -/
def Tick (m_wireframe_mode : Bool) : List Step :=
  [Step.cameraProcessKeyboardInput, Step.cameraTick, Step.BindWindowBuffer, Step.StartImGuiFrame,
   Step.UpdateRenderData] ++
  (if !m_wireframe_mode then [Step.RenderShadowMap] else []) ++
  [Step.BindFrameBuffer] ++
  (if !m_wireframe_mode then [Step.RenderFullScreenQuad] else []) ++
  [Step.RenderSceneBatched, Step.unbindFramebuffer, Step.ShowDebugUI, Step.consoleRender,
   Step.EndImGuiFrame, Step.swapBuffers]

/-- The steps of a frame that belong to the render pipeline: everything but camera input and the
ImGui / console user interface. -/
def Step.isPipeline : Step → Bool
  | Step.cameraProcessKeyboardInput => false
  | Step.cameraTick => false
  | Step.StartImGuiFrame => false
  | Step.ShowDebugUI => false
  | Step.consoleRender => false
  | Step.EndImGuiFrame => false
  | _ => true

/-! ## Auxiliary definitions used by the statements -/

/-- The loop condition of the inner `for` of `RenderSceneBatched`. -/
def sameKey {μ : Type} (mat mesh : Nat) (it : Item μ) : Bool :=
  decide (it.mat = mat ∧ it.mesh = mesh)

/-- A batch and the stretch of the item list it was accumulated from. -/
def Batch.Covers {μ : Type} (b : Batch μ) (g : List (Item μ)) : Prop :=
  g ≠ [] ∧ b.models = g.map Item.model ∧ b.instanceCount = g.length ∧
    ∀ it ∈ g, it.mat = b.mat ∧ it.mesh = b.mesh

/-- The upload and draw that one batch contributes to a trace. -/
def Batch.instanced {μ : Type} (ctx : SceneCtx μ) (b : Batch μ) : InstancedDraw μ :=
  { vbo := (ctx.meshes b.mesh).instanceVBO, data := b.models.take b.instanceCount,
    vao := (ctx.meshes b.mesh).VAO, indexCount := (ctx.meshes b.mesh).indexCount,
    instanceCount := b.instanceCount }

/-- The trace reader before any call: nothing bound, nothing pending. -/
def PairState.init {μ : Type} : PairState μ := { boundVbo := 0, boundVao := 0, pending := none }

/-- Insertion sort with the comparator of `RenderSceneBatched`: one admissible `std::sort`. -/
def insertionStdSort (μ : Type) : StdSort (Item μ) itemLess where
  sort := List.insertionSort (fun a b => itemLess b a = false)
  perm := List.perm_insertionSort _
  sorted := by
    intro l
    have key : ∀ a b : Item μ,
        itemLess b a = false ↔ a.mat < b.mat ∨ (a.mat = b.mat ∧ a.mesh ≤ b.mesh) := by
      intro a b
      unfold itemLess
      by_cases h : b.mat = a.mat
      · simp [h]
      · simp [h]
        omega
    have htot : IsTotal (Item μ) (fun a b => itemLess b a = false) :=
      ⟨fun a b => by
        simp only [key]
        omega⟩
    have htr : IsTrans (Item μ) (fun a b => itemLess b a = false) :=
      ⟨fun a b c h1 h2 => by
        simp only [key] at *
        omega⟩
    exact List.sorted_insertionSort _ l

/-- Insertion sort with the comparator of `RenderShadowMap`: one admissible `std::sort`. -/
def insertionShadowSort (μ : Type) : StdSort (ShadowItem μ) shadowLess where
  sort := List.insertionSort (fun a b => shadowLess b a = false)
  perm := List.perm_insertionSort _
  sorted := by
    intro l
    have htot : IsTotal (ShadowItem μ) (fun a b => shadowLess b a = false) :=
      ⟨fun a b => by simp [shadowLess]; omega⟩
    have htr : IsTrans (ShadowItem μ) (fun a b => shadowLess b a = false) :=
      ⟨fun a b c => by simp [shadowLess]; omega⟩
    exact List.sorted_insertionSort _ l

/-- Rational stand-ins for the C library functions (small-angle forms), used to run the camera
on concrete numbers. -/
def smallAngle : Libm ℚ :=
  { sin := fun x => x, cos := fun _ => 1, tan := fun x => x, inversesqrt := fun _ => 1 }

/-- A camera with every vector and angle zero, zoom 60, aspect 16/9 and sensitivity 1/10. -/
def sampleCamera : Camera ℚ :=
  { m_position := ⟨0, 0, 0⟩, m_forward := ⟨0, 0, -1⟩, m_right := ⟨1, 0, 0⟩, m_up := ⟨0, 1, 0⟩,
    m_yaw := 0, m_pitch := 0, m_zoom := 60, m_aspect_ratio := 16 / 9,
    m_projection_matrix := Mat4.one, m_mouse_sensitivity := 1 / 10, m_movement_speed := 1 }

/-- A scene context in which mesh pointer `p` has vertex array `p + 100`, instance buffer
`p + 200` and 36 indices, and material pointer `q` uses shader `q + 10`. -/
def sampleSceneCtx : SceneCtx Int :=
  { meshes := fun p => { VAO := p + 100, instanceVBO := p + 200, indexCount := 36 },
    materialShader := fun q => q + 10, shadowTexture := 2, light_view := 3,
    light_projection := 5 }

/-- A renderer whose off-screen target was allocated at 800 x 600 with object names 3, 4, 5. -/
def sampleRenderer : Renderer ℚ :=
  { m_frame_buffer := { frame_buffer := 3, texture := 4, depth_render_buffer := 5,
                        render_width := 800, render_height := 600 },
    m_camera := sampleCamera, m_wireframe_mode := false, nextName := 6 }

/-- A shadow map of 2048 x 2048 on framebuffer 1 with depth texture 2. -/
def sampleShadowMap : ShadowMap Int :=
  { fbo := 1, texture := 2, shadow_width := 2048, shadow_height := 2048,
    light_view := 1, light_projection := 1 }

/-- A shadow-pass environment with a 1280 x 720 window framebuffer. -/
def sampleShadowEnv : ShadowEnv Int :=
  { meshes := fun p => { VAO := p + 100, instanceVBO := p + 200, indexCount := 36 },
    shadow_shader := 7, lookAt := 3, ortho := 5, windowWidth := 1280, windowHeight := 720 }

/-- The GL state on entry to the shadow pass in `Tick`: window framebuffer bound, viewport at the
window size, culling and polygon offset off. -/
def sampleGLState : GLState :=
  { framebuffer := 0, viewport := (1280, 720), cullFaceMode := Face.back,
    cullFaceEnabled := false, polygonOffsetFill := false, depthTest := false,
    drawBufferNone := false }

/-! ## Gathering draw items from the registry -/

/-- The first gather loop of `RenderSceneBatched`, over
`view<TransformComponent, MeshComponent, MaterialComponent>`. -/
def gatherMeshItems {μ : Type} : List (Entity μ) → List (Item μ)
  | [] => []
  | e :: es =>
    match e.transform, e.mesh, e.material with
    | some tc, some mc, some mat =>
      { mat := mat, mesh := mc, model := tc } :: gatherMeshItems es
    | _, _, _ => gatherMeshItems es

/-- The second gather loop of `RenderSceneBatched`, over
`view<TransformComponent, ModelComponent, MaterialComponent>`: one item per sub-mesh. -/
def gatherModelItems {μ : Type} : List (Entity μ) → List (Item μ)
  | [] => []
  | e :: es =>
    match e.transform, e.model, e.material with
    | some tc, some subs, some mat =>
      subs.map (fun submesh => { mat := mat, mesh := submesh, model := tc })
        ++ gatherModelItems es
    | _, _, _ => gatherModelItems es

/-- `Renderer::RenderSceneBatched`: gather, then the sort, scan and draw of `drawItems`. -/
def RenderSceneBatched {μ : Type} [Mul μ] (S : StdSort (Item μ) itemLess) (ctx : SceneCtx μ)
    (registry : List (Entity μ)) : List (GLCall μ) :=
  drawItems S ctx (gatherMeshItems registry ++ gatherModelItems registry)

/-- Whether an entity has a transform, a mesh and a material. -/
def Entity.isMeshEntity {μ : Type} (e : Entity μ) : Bool :=
  e.transform.isSome && e.mesh.isSome && e.material.isSome

/-- Whether an entity has a transform, a model and a material. -/
def Entity.isModelEntity {μ : Type} (e : Entity μ) : Bool :=
  e.transform.isSome && e.model.isSome && e.material.isSome

/-- The number of sub-meshes of the model of an entity, zero without a model. -/
def Entity.submeshCount {μ : Type} (e : Entity μ) : Nat :=
  match e.model with
  | some subs => subs.length
  | none => 0

/-- The shadow items gathered by `RenderShadowMap`. -/
def shadowItems {μ : Type} (registry : List (Entity μ)) : List (ShadowItem μ) :=
  gatherShadowMeshes registry ++ gatherShadowModels registry

/-- The loop condition of the inner `for` of `RenderShadowMap`. -/
def sameMesh {μ : Type} (mesh : Nat) (it : ShadowItem μ) : Bool := decide (it.mesh = mesh)

/-- The upload and draw that one shadow batch contributes to a trace. -/
def ShadowBatch.instanced {μ : Type} (meshes : Nat → Mesh) (b : ShadowBatch μ) :
    InstancedDraw μ :=
  { vbo := (meshes b.mesh).instanceVBO, data := b.models,
    vao := (meshes b.mesh).VAO, indexCount := (meshes b.mesh).indexCount,
    instanceCount := b.models.length }

/-! ## Camera construction -/

/-- The values the members of `Camera` hold when the constructor body starts.  The class
declaration `Camera.h` is not among the sources at hand, so they are taken as given. -/
structure CameraDefaults (K : Type) where
  m_zoom : K
  m_mouse_sensitivity : K
  m_movement_speed : K
  m_forward : Vec3 K
  m_right : Vec3 K
  m_up : Vec3 K

/-- `Camera::Camera(position, yaw, pitch)`, statement by statement: the projection matrix is
built by `UpdateProjectionMatrix()` before `m_zoom = 60.f` is assigned. -/
def Camera.new {K : Type} [Field K] (m : Libm K) (d : CameraDefaults K) (position : Vec3 K)
    (yaw pitch : K) : Camera K :=
  let c0 : Camera K :=
    { m_position := position, m_forward := d.m_forward, m_right := d.m_right, m_up := d.m_up,
      m_yaw := yaw, m_pitch := pitch, m_zoom := d.m_zoom, m_aspect_ratio := 16 / 9,
      m_projection_matrix := Mat4.one, m_mouse_sensitivity := d.m_mouse_sensitivity,
      m_movement_speed := d.m_movement_speed }
  let c1 := Camera.UpdateProjectionMatrix m c0
  { c1 with m_forward := ⟨0, 0, -1⟩, m_right := ⟨1, 0, 0⟩, m_up := ⟨0, 1, 0⟩, m_zoom := 60 }

/-- The cached projection matrix agrees with the current zoom and aspect ratio. -/
def Camera.ProjectionFresh {K : Type} [Field K] (m : Libm K) (c : Camera K) : Prop :=
  c.GetProjectionMatrix = perspective m (radians c.m_zoom) c.m_aspect_ratio (1 / 10) 1000

/-- One call on a camera, among those the claim of the cached matrix speaks of. -/
inductive CameraOp (K : Type) where
  | SetAspectRatio (aspect_ratio : K)
  | ProcessMouseScroll (yOffset : K)
  | ProcessMouseInput (x_offset y_offset : K) (constrain_pitch : Bool)

/-- Runs one camera call. -/
def Camera.apply {K : Type} [LinearOrderedField K] (m : Libm K) (c : Camera K) :
    CameraOp K → Camera K
  | CameraOp.SetAspectRatio a => c.SetAspectRatio m a
  | CameraOp.ProcessMouseScroll y => c.ProcessMouseScroll m y
  | CameraOp.ProcessMouseInput dx dy b => c.ProcessMouseInput m dx dy b

/-- Header values used to run the constructor on concrete numbers: initial zoom 45. -/
def sampleCameraDefaults : CameraDefaults ℚ :=
  { m_zoom := 45, m_mouse_sensitivity := 1 / 10, m_movement_speed := 1,
    m_forward := ⟨0, 0, 0⟩, m_right := ⟨0, 0, 0⟩, m_up := ⟨0, 0, 0⟩ }

/-! ## The shadow-map viewer of `ShowDebugUI` -/

/-- The UV rectangle handed to `ImGui::Image` by the shadow-map viewer. -/
structure UVRect (K : Type) where
  uv_min : K × K
  uv_max : K × K
deriving DecidableEq, Repr

/-- The UV computation of the shadow-map viewer in `Renderer::ShowDebugUI` for the slider value
`shadow_zoom` and the drag value `shadow_pan`. -/
def shadowViewerUV {K : Type} [LinearOrderedField K] (shadow_zoom : K) (shadow_pan : K × K) :
    UVRect K :=
  let uv_range : K := (1 / 2) / shadow_zoom
  let uv_center : K × K := (1 / 2 + shadow_pan.1 * uv_range, 1 / 2 + shadow_pan.2 * uv_range)
  let cx := clamp uv_center.1 uv_range (1 - uv_range)
  let cy := clamp uv_center.2 uv_range (1 - uv_range)
  { uv_min := (cx - uv_range, cy - uv_range), uv_max := (cx + uv_range, cy + uv_range) }

/-! ## CubeBatch -/

/-- The glm `operator-` on `vec3`. -/
def Vec3.sub {K : Type} [Field K] (a b : Vec3 K) : Vec3 K := ⟨a.x - b.x, a.y - b.y, a.z - b.z⟩

/-- The glm function `dot`. -/
def Vec3.dot {K : Type} [Field K] (a b : Vec3 K) : K := a.x * b.x + a.y * b.y + a.z * b.z

/-- A `vec3` scaled by a scalar. -/
def Vec3.scale {K : Type} [Field K] (s : K) (v : Vec3 K) : Vec3 K := ⟨s * v.x, s * v.y, s * v.z⟩

/-- The glm `operator+` on `vec3` as the machine computes it: each component sum is rounded to
a `float` by `fl`. -/
def Vec3.addFloat {K : Type} [Field K] (fl : K → K) (a b : Vec3 K) : Vec3 K :=
  ⟨fl (a.x + b.x), fl (a.y + b.y), fl (a.z + b.z)⟩

/-- Rounding to the nearest integer, ties to the even one. -/
def roundHalfEven (r : ℚ) : ℤ :=
  if r - ⌊r⌋ < 1 / 2 then ⌊r⌋
  else if 1 / 2 < r - ⌊r⌋ then ⌊r⌋ + 1
  else if ⌊r⌋ % 2 = 0 then ⌊r⌋ else ⌊r⌋ + 1

/-- The spacing of the `float` values (IEEE binary32, 24-bit significand, least exponent -126)
around `x`. -/
def ulpFloat32 (x : ℚ) : ℚ := 2 ^ (max (Int.log 2 |x|) (-126) - 23)

/-- The `float` nearest to `x`, ties to even, for `x` within the finite range of the format:
what an IEEE addition or division delivers when `x` is its exact result. -/
def roundFloat32 (x : ℚ) : ℚ := ulpFloat32 x * roundHalfEven (x / ulpFloat32 x)

/-- The `Vertex` pushed by `AddCube`: position, color, normal, tangent. -/
structure Vertex (K : Type) where
  position : Vec3 K
  color : Vec3 K
  normal : Vec3 K
  tangent : Vec3 K
deriving DecidableEq, Repr

/-- The local table `cubeVertices` of `AddCube`. -/
def cubeVertices {K : Type} [Field K] (halfSize : K) : List (Vec3 K) :=
  [ ⟨-halfSize, -halfSize, halfSize⟩,
    ⟨halfSize, -halfSize, halfSize⟩,
    ⟨halfSize, halfSize, halfSize⟩,
    ⟨-halfSize, halfSize, halfSize⟩,
    ⟨-halfSize, -halfSize, -halfSize⟩,
    ⟨halfSize, -halfSize, -halfSize⟩,
    ⟨halfSize, halfSize, -halfSize⟩,
    ⟨-halfSize, halfSize, -halfSize⟩ ]

/-- The local table `cubeIndices` of `AddCube`. -/
def cubeIndices : List Nat :=
  [ 0, 1, 2, 2, 3, 0,
    4, 7, 6, 6, 5, 4,
    4, 0, 3, 3, 7, 4,
    1, 5, 6, 6, 2, 1,
    3, 2, 6, 6, 7, 3,
    4, 5, 1, 1, 0, 4 ]

/-- The local table `faceNormals` of `AddCube`. -/
def faceNormals {K : Type} [Field K] : List (Vec3 K) :=
  [ ⟨0, 0, 1⟩, ⟨0, 0, -1⟩, ⟨-1, 0, 0⟩, ⟨1, 0, 0⟩, ⟨0, 1, 0⟩, ⟨0, -1, 0⟩ ]

/-- The members that `CubeBatch` has from its base class `Primitive`. -/
structure PrimitiveState where
  m_vao : Nat
  m_vbo : Nat
  m_cull_back_face : Bool
  m_shaded : Bool
deriving DecidableEq, Repr

/-- The data members of `CubeBatch`.  Indices are `unsigned int`, kept below `2 ^ 32`. -/
structure CubeBatch (K : Type) extends PrimitiveState where
  m_ebo : Nat
  m_vertices : List (Vertex K)
  m_indices : List Nat
  m_cube_buffers_initialized : Bool
deriving DecidableEq, Repr

/-- `CubeBatch::CubeBatch()`: the vectors start empty and the three flags are assigned; the
handles hold what the base class left in them. -/
def CubeBatch.new {K : Type} (m_vao m_vbo m_ebo : Nat) : CubeBatch K :=
  { m_vao := m_vao, m_vbo := m_vbo, m_cull_back_face := true, m_shaded := true, m_ebo := m_ebo,
    m_vertices := [], m_indices := [], m_cube_buffers_initialized := false }

/-- The inner `for (size_t i = 0; i < 6; ++i)` of the vertex loop of `AddCube` for one face.
`halfSize = size / 2.0f` and `localPosition + position` are `float` operations: each is the exact
result rounded by `fl`. -/
def cubeFaceVertices {K : Type} [Field K] (fl : K → K) (position : Vec3 K) (size : K)
    (color : Vec3 K) (face : Nat) : List (Vertex K) :=
  (List.range 6).map (fun i =>
    { position :=
        Vec3.addFloat fl
          ((cubeVertices (fl (size / 2))).getD (cubeIndices.getD (face * 6 + i) 0) ⟨0, 0, 0⟩)
          position,
      color := color,
      normal := faceNormals.getD face ⟨0, 0, 0⟩,
      tangent := ⟨1, 0, 0⟩ })

/-- The vertices pushed by one `AddCube`: the loop over `face < faceNormals.size()`. -/
def cubeNewVertices {K : Type} [Field K] (fl : K → K) (position : Vec3 K) (size : K)
    (color : Vec3 K) : List (Vertex K) :=
  (List.range (@faceNormals K _).length).flatMap (cubeFaceVertices fl position size color)

/-- The indices pushed by one `AddCube`: for `i = 0, 6, ..., 30` the six values
`vertex_offset + i + 0` to `vertex_offset + i + 5`, in `unsigned int` arithmetic. -/
def cubeNewIndices (vertex_offset : Nat) : List Nat :=
  ((List.range cubeIndices.length).filter (fun i => i % 6 = 0)).flatMap (fun i =>
    [ (vertex_offset + i + 0) % 2 ^ 32, (vertex_offset + i + 1) % 2 ^ 32,
      (vertex_offset + i + 2) % 2 ^ 32, (vertex_offset + i + 3) % 2 ^ 32,
      (vertex_offset + i + 4) % 2 ^ 32, (vertex_offset + i + 5) % 2 ^ 32 ])

/-- `CubeBatch::AddCube(position, size, color)`, with
`vertex_offset = static_cast<unsigned int>(m_vertices.size())`. -/
def CubeBatch.AddCube {K : Type} [Field K] (c : CubeBatch K) (fl : K → K) (position : Vec3 K)
    (size : K) (color : Vec3 K) : CubeBatch K :=
  { c with m_vertices := c.m_vertices ++ cubeNewVertices fl position size color,
           m_indices := c.m_indices ++ cubeNewIndices (c.m_vertices.length % 2 ^ 32) }

/-- The parameters of one `AddCube` call. -/
structure Cube (K : Type) where
  position : Vec3 K
  size : K
  color : Vec3 K
deriving DecidableEq, Repr

/-- A run of `AddCube` calls. -/
def CubeBatch.addCubes {K : Type} [Field K] (c : CubeBatch K) (fl : K → K)
    (cubes : List (Cube K)) : CubeBatch K :=
  cubes.foldl (fun c q => c.AddCube fl q.position q.size q.color) c

/-- No rounding happens in `AddCube`: `size / 2` and the six corner sums are `float` values. -/
def CubeExact {K : Type} [Field K] (fl : K → K) (position : Vec3 K) (size : K) : Prop :=
  fl (size / 2) = size / 2 ∧
  fl (size / 2 + position.x) = size / 2 + position.x ∧
  fl (-(size / 2) + position.x) = -(size / 2) + position.x ∧
  fl (size / 2 + position.y) = size / 2 + position.y ∧
  fl (-(size / 2) + position.y) = -(size / 2) + position.y ∧
  fl (size / 2 + position.z) = size / 2 + position.z ∧
  fl (-(size / 2) + position.z) = -(size / 2) + position.z

/-- One call made by `CubeBatch::InitBuffers` or `CubeBatch::Draw`. -/
inductive CubeCall (K : Type) where
  | primitiveInitBuffers
  | primitiveDraw
  | bindVertexArray (vao : Nat)
  | genBuffers
  | cerr
  | bindArrayBuffer (vbo : Nat)
  | bufferDataVertices (data : List (Vertex K))
  | vertexAttribPointer (location : Nat)
  | enableVertexAttribArray (location : Nat)
  | bindElementArrayBuffer (ebo : Nat)
  | bufferDataIndices (data : List Nat)
  | getError
  | drawElements (count : Nat)
deriving DecidableEq, Repr

/-- What `CubeBatch` takes from outside `CubeBatch.cpp`: the base-class methods
`Primitive::InitBuffers` and `Primitive::Draw`, which are not among the sources at hand and are
taken as any functions on the base-class members that return normally; the name that
`glGenBuffers` stores in `m_ebo` (zero when it fails); and whether `glGetError` reports an
error. -/
structure CubeEnv where
  primitiveInitBuffers : PrimitiveState → PrimitiveState
  primitiveDraw : PrimitiveState → PrimitiveState
  genBuffer : Nat
  glError : Bool

/-- `CubeBatch::InitBuffers`. -/
def CubeBatch.InitBuffers {K : Type} (env : CubeEnv) (c : CubeBatch K) :
    CubeBatch K × List (CubeCall K) :=
  let c0 : CubeBatch K := { c with toPrimitiveState := env.primitiveInitBuffers c.toPrimitiveState }
  if c0.m_cube_buffers_initialized then (c0, [CubeCall.primitiveInitBuffers])
  else
    let c1 : CubeBatch K := { c0 with m_ebo := env.genBuffer }
    let upload : List (CubeCall K) :=
      [CubeCall.primitiveInitBuffers, CubeCall.bindVertexArray c1.m_vao, CubeCall.genBuffers] ++
      (if c1.m_ebo = 0 then [CubeCall.cerr] else []) ++
      [ CubeCall.bindArrayBuffer c1.m_vbo,
        CubeCall.bufferDataVertices c1.m_vertices,
        CubeCall.vertexAttribPointer 0, CubeCall.enableVertexAttribArray 0,
        CubeCall.vertexAttribPointer 1, CubeCall.enableVertexAttribArray 1,
        CubeCall.vertexAttribPointer 2, CubeCall.enableVertexAttribArray 2,
        CubeCall.vertexAttribPointer 3, CubeCall.enableVertexAttribArray 3 ]
    if c1.m_indices.isEmpty then (c1, upload ++ [CubeCall.cerr])
    else
      ({ c1 with m_cube_buffers_initialized := true },
       upload ++
        [ CubeCall.bindElementArrayBuffer c1.m_ebo,
          CubeCall.bufferDataIndices c1.m_indices,
          CubeCall.getError ] ++
        (if env.glError then [CubeCall.cerr] else []) ++
        [CubeCall.bindVertexArray 0, CubeCall.bindArrayBuffer 0])

/-- The `std::runtime_error`s thrown inside the `try` block of `CubeBatch::Draw`. -/
inductive DrawError where
  | invalidVAO
  | invalidEBO
  | indicesEmpty
deriving DecidableEq, Repr

/-- The first statement of the `try` block of `Draw`:
`if (!m_cube_buffers_initialized) { InitBuffers(); m_cube_buffers_initialized = true; }`. -/
def CubeBatch.lazyInit {K : Type} (env : CubeEnv) (c : CubeBatch K) :
    CubeBatch K × List (CubeCall K) :=
  if !c.m_cube_buffers_initialized then
    ({ (c.InitBuffers env).1 with m_cube_buffers_initialized := true }, (c.InitBuffers env).2)
  else (c, [])

/-- The `try` block of `Draw`: the batch, the calls made, and the exception thrown if any.
The count handed to `glDrawElements` is `static_cast<GLsizei>(m_indices.size())`, with the size
taken to fit a `GLsizei`. -/
def CubeBatch.drawTry {K : Type} (env : CubeEnv) (c : CubeBatch K) :
    CubeBatch K × List (CubeCall K) × Option DrawError :=
  let c1 := (c.lazyInit env).1
  let t1 := (c.lazyInit env).2
  if c1.m_vao = 0 then (c1, t1, some DrawError.invalidVAO)
  else if c1.m_ebo = 0 then (c1, t1, some DrawError.invalidEBO)
  else if c1.m_indices.isEmpty then (c1, t1, some DrawError.indicesEmpty)
  else
    (c1,
     t1 ++ [ CubeCall.bindVertexArray c1.m_vao,
             CubeCall.drawElements c1.m_indices.length,
             CubeCall.bindVertexArray 0 ],
     none)

/-- What a call of `Draw` leaves: the batch, the calls made, and the exception that leaves
`Draw`, if any. -/
structure DrawResult (K : Type) where
  batch : CubeBatch K
  calls : List (CubeCall K)
  escaped : Option DrawError

/-- The batch on entry to the `try` block of `Draw`, after `Primitive::Draw()`. -/
def CubeBatch.afterPrimitiveDraw {K : Type} (env : CubeEnv) (c : CubeBatch K) : CubeBatch K :=
  { c with toPrimitiveState := env.primitiveDraw c.toPrimitiveState }

/-- `CubeBatch::Draw`: `Primitive::Draw()`, the `try` block, and the handler
`catch (const std::exception&)`, which catches every `std::runtime_error` and logs it. -/
def CubeBatch.Draw {K : Type} (env : CubeEnv) (c : CubeBatch K) : DrawResult K :=
  match (c.afterPrimitiveDraw env).drawTry env with
  | (c1, t1, some _) =>
    { batch := c1, calls := CubeCall.primitiveDraw :: t1 ++ [CubeCall.cerr], escaped := none }
  | (c1, t1, none) =>
    { batch := c1, calls := CubeCall.primitiveDraw :: t1, escaped := none }

/-- One call on a batch. -/
inductive CubeOp (K : Type) where
  | AddCube (q : Cube K)
  | Draw

/-- A run of `AddCube` and `Draw` calls: the batch afterwards and all calls made. -/
def CubeBatch.run {K : Type} [Field K] (fl : K → K) (env : CubeEnv) :
    CubeBatch K → List (CubeOp K) → CubeBatch K × List (CubeCall K)
  | c, [] => (c, [])
  | c, CubeOp.AddCube q :: ops =>
    CubeBatch.run fl env (c.AddCube fl q.position q.size q.color) ops
  | c, CubeOp.Draw :: ops =>
    ((CubeBatch.run fl env (c.Draw env).batch ops).1,
     (c.Draw env).calls ++ (CubeBatch.run fl env (c.Draw env).batch ops).2)

/-- The contents of the vertex buffer and of the element buffer on the GPU, when uploaded. -/
structure GpuBuffers (K : Type) where
  vertices : Option (List (Vertex K))
  indices : Option (List Nat)

/-- Effect of one call on the GPU buffers. -/
def GpuBuffers.step {K : Type} (g : GpuBuffers K) : CubeCall K → GpuBuffers K
  | CubeCall.bufferDataVertices vs => { g with vertices := some vs }
  | CubeCall.bufferDataIndices is => { g with indices := some is }
  | _ => g

/-- Whether a draw of `count` indices matches the buffers: the element buffer was uploaded and
holds exactly `count` indices, and the vertex buffer was uploaded and holds every vertex they
reference. -/
def GpuBuffers.inSync {K : Type} (g : GpuBuffers K) (count : Nat) : Bool :=
  match g.indices, g.vertices with
  | some is, some vs => decide (is.length = count) && is.all (fun i => decide (i < vs.length))
  | _, _ => false

/-- Whether every `glDrawElements` of a trace finds the buffers in sync with its count. -/
def drawsInSync {K : Type} : GpuBuffers K → List (CubeCall K) → Bool
  | _, [] => true
  | g, CubeCall.drawElements count :: t => g.inSync count && drawsInSync g t
  | g, call :: t => drawsInSync (g.step call) t

/-- GPU buffers after a whole trace. -/
def GpuBuffers.run {K : Type} (g : GpuBuffers K) (trace : List (CubeCall K)) : GpuBuffers K :=
  trace.foldl GpuBuffers.step g

/-- The sizes of the index arrays uploaded by the `glBufferData` calls on the element buffer. -/
def uploadedIndexCounts {K : Type} : List (CubeCall K) → List Nat
  | [] => []
  | CubeCall.bufferDataIndices data :: t => data.length :: uploadedIndexCounts t
  | _ :: t => uploadedIndexCounts t

/-- The buffers handed to the GPU match the batch: set once the flag is up, with every index
below the number of uploaded vertices. -/
def CubeBatch.Uploaded {K : Type} (c : CubeBatch K) (g : GpuBuffers K) : Prop :=
  c.m_cube_buffers_initialized = true ∧
  (c.m_indices ≠ [] → g.indices = some c.m_indices ∧
    ∃ vs, g.vertices = some vs ∧ ∀ i ∈ c.m_indices, i < vs.length)

/-- A base class that creates vertex array 1 and vertex buffer 2 on first use, and an element
buffer named 3. -/
def sampleCubeEnv : CubeEnv :=
  { primitiveInitBuffers := fun p =>
      { p with m_vao := if p.m_vao = 0 then 1 else p.m_vao,
               m_vbo := if p.m_vbo = 0 then 2 else p.m_vbo },
    primitiveDraw := fun p => p,
    genBuffer := 3,
    glError := false }

/-- A unit cube at the origin. -/
def sampleCube : Cube ℚ := { position := ⟨0, 0, 0⟩, size := 1, color := ⟨1, 1, 1⟩ }

/-! # Theorems -/

theorem itemLess_false_iff {μ : Type} (a b : Item μ) :
    itemLess b a = false ↔ a.mat < b.mat ∨ (a.mat = b.mat ∧ a.mesh ≤ b.mesh) := by
  unfold itemLess
  by_cases h : b.mat = a.mat
  · simp [h]
  · simp [h]
    omega

/-! ## The inner loop is `takeWhile` / `dropWhile` -/

theorem collectModels_fst {μ : Type} (mat mesh : Nat) (l : List (Item μ)) :
    (collectModels mat mesh l).1 = (l.takeWhile (sameKey mat mesh)).map Item.model := by
  induction l with
  | nil => rfl
  | cons it rest ih =>
    by_cases h : it.mat = mat ∧ it.mesh = mesh
    · simp [collectModels, sameKey, h, List.takeWhile_cons, ih]
    · simp [collectModels, sameKey, h, List.takeWhile_cons]

theorem collectModels_snd {μ : Type} (mat mesh : Nat) (l : List (Item μ)) :
    (collectModels mat mesh l).2 = l.dropWhile (sameKey mat mesh) := by
  induction l with
  | nil => rfl
  | cons it rest ih =>
    by_cases h : it.mat = mat ∧ it.mesh = mesh
    · simp [collectModels, sameKey, h, List.dropWhile_cons, ih]
    · simp [collectModels, sameKey, h, List.dropWhile_cons]

theorem dropWhile_length_le {α : Type} (p : α → Bool) (l : List α) :
    (l.dropWhile p).length ≤ l.length :=
  (List.dropWhile_sublist p).length_le

/-! ## The iteration budget of the outer loop is never exhausted -/

theorem batchLoopFuel_budget {μ : Type} (n : Nat) :
    ∀ (m : Nat) (l : List (Item μ)), l.length ≤ n → l.length ≤ m →
      batchLoopFuel n l = batchLoopFuel m l := by
  induction n with
  | zero =>
    intro m l hn _
    have hl : l = [] := List.length_eq_zero.mp (Nat.le_zero.mp hn)
    subst hl
    cases m <;> rfl
  | succ n ih =>
    intro m l hn hm
    cases l with
    | nil => cases m <;> rfl
    | cons it rest =>
      cases m with
      | zero => simp at hm
      | succ m =>
        have hlen : (collectModels it.mat it.mesh (it :: rest)).2.length ≤ rest.length := by
          rw [collectModels_snd]
          simp only [List.dropWhile_cons, sameKey, and_self, decide_True, if_true]
          exact dropWhile_length_le _ _
        simp only [List.length_cons] at hn hm
        simp only [batchLoopFuel]
        rw [ih m _ (by omega) (by omega)]

theorem batchLoop_nil {μ : Type} : batchLoop ([] : List (Item μ)) = [] := rfl

/-- One iteration of the outer loop: the batch opened at the first remaining item, then the loop
on the items the inner loop left. -/
theorem batchLoop_cons {μ : Type} (it : Item μ) (rest : List (Item μ)) :
    batchLoop (it :: rest) =
      { mat := it.mat, mesh := it.mesh,
        models := ((it :: rest).takeWhile (sameKey it.mat it.mesh)).map Item.model,
        instanceCount := ((it :: rest).takeWhile (sameKey it.mat it.mesh)).length }
        :: batchLoop ((it :: rest).dropWhile (sameKey it.mat it.mesh)) := by
  have hlen : ((it :: rest).dropWhile (sameKey it.mat it.mesh)).length ≤ rest.length := by
    simp only [List.dropWhile_cons, sameKey, and_self, decide_True, if_true]
    exact dropWhile_length_le _ _
  unfold batchLoop
  simp only [List.length_cons, batchLoopFuel, collectModels_fst, collectModels_snd,
    List.length_map]
  rw [batchLoopFuel_budget rest.length _ _ hlen (le_refl _)]

theorem batchLoop_groups_aux {μ : Type} (n : Nat) :
    ∀ l : List (Item μ), l.length ≤ n →
      ∃ groups : List (List (Item μ)),
        groups.flatten = l ∧ List.Forall₂ Batch.Covers (batchLoop l) groups := by
  induction n with
  | zero =>
    intro l hl
    have : l = [] := List.length_eq_zero.mp (Nat.le_zero.mp hl)
    subst this
    exact ⟨[], rfl, by rw [batchLoop_nil]; exact List.Forall₂.nil⟩
  | succ n ih =>
    intro l hl
    cases l with
    | nil => exact ⟨[], rfl, by rw [batchLoop_nil]; exact List.Forall₂.nil⟩
    | cons it rest =>
      have hlen : ((it :: rest).dropWhile (sameKey it.mat it.mesh)).length ≤ n := by
        have h1 : ((it :: rest).dropWhile (sameKey it.mat it.mesh)).length ≤ rest.length := by
          simp only [List.dropWhile_cons, sameKey, and_self, decide_True, if_true]
          exact dropWhile_length_le _ _
        simp only [List.length_cons] at hl
        omega
      obtain ⟨gs, hflat, hcov⟩ := ih _ hlen
      refine ⟨(it :: rest).takeWhile (sameKey it.mat it.mesh) :: gs, ?_, ?_⟩
      · rw [List.flatten_cons, hflat, List.takeWhile_append_dropWhile]
      · rw [batchLoop_cons]
        refine List.Forall₂.cons ⟨?_, rfl, rfl, ?_⟩ hcov
        · simp [List.takeWhile_cons, sameKey]
        · intro x hx
          have := List.mem_takeWhile_imp hx
          simpa [sameKey] using this

/-- The scan cuts the list it is given into consecutive non-empty stretches, one per batch, each
batch holding the matrices of its stretch in order, all of whose items carry the batch key. -/
theorem batchLoop_groups {μ : Type} (l : List (Item μ)) :
    ∃ groups : List (List (Item μ)),
      groups.flatten = l ∧ List.Forall₂ Batch.Covers (batchLoop l) groups :=
  batchLoop_groups_aux l.length l (le_refl _)

theorem forall₂_covers_models {μ : Type} {bs : List (Batch μ)} {gs : List (List (Item μ))}
    (h : List.Forall₂ Batch.Covers bs gs) :
    (bs.map Batch.models).flatten = gs.flatten.map Item.model ∧
    (bs.map Batch.instanceCount).sum = gs.flatten.length ∧
    (∀ b ∈ bs, b.instanceCount = b.models.length) ∧
    (∀ b ∈ bs, ∃ it ∈ gs.flatten, it.key = b.key) ∧
    (∀ it ∈ gs.flatten, ∃ b ∈ bs, b.key = it.key) := by
  induction h with
  | nil => simp
  | @cons b g bs gs hbg _ ih =>
    obtain ⟨hne, hm, hc, hk⟩ := hbg
    obtain ⟨ih1, ih2, ih3, ih4, ih5⟩ := ih
    refine ⟨?_, ?_, ?_, ?_, ?_⟩
    · simp [ih1, hm]
    · simp [ih2, hc]
    · intro b' hb'
      rcases List.mem_cons.mp hb' with rfl | hb'
      · rw [hc, hm, List.length_map]
      · exact ih3 b' hb'
    · intro b' hb'
      rcases List.mem_cons.mp hb' with rfl | hb'
      · obtain ⟨x, xs, rfl⟩ := List.exists_cons_of_ne_nil hne
        refine ⟨x, by simp, ?_⟩
        have := hk x (List.mem_cons_self _ _)
        simp [Item.key, Batch.key, this.1, this.2]
      · obtain ⟨it, hit, hkey⟩ := ih4 b' hb'
        exact ⟨it, by simp [hit], hkey⟩
    · intro it hit
      simp only [List.flatten_cons, List.mem_append] at hit
      rcases hit with hit | hit
      · refine ⟨b, List.mem_cons_self _ _, ?_⟩
        have := hk it hit
        simp [Item.key, Batch.key, this.1, this.2]
      · obtain ⟨b', hb', hkey⟩ := ih5 it hit
        exact ⟨b', List.mem_cons_of_mem _ hb', hkey⟩

/-! ## On a sorted list no key opens two batches -/

theorem batchLoop_keys_nodup_aux {μ : Type} (n : Nat) :
    ∀ l : List (Item μ), l.length ≤ n → l.Pairwise (fun a b => itemLess b a = false) →
      ((batchLoop l).map Batch.key).Nodup := by
  induction n with
  | zero =>
    intro l hl _
    have : l = [] := List.length_eq_zero.mp (Nat.le_zero.mp hl)
    subst this
    simp [batchLoop_nil]
  | succ n ih =>
    intro l hl hs
    cases l with
    | nil => simp [batchLoop_nil]
    | cons it rest =>
      have hlen : ((it :: rest).dropWhile (sameKey it.mat it.mesh)).length ≤ n := by
        have h1 : ((it :: rest).dropWhile (sameKey it.mat it.mesh)).length ≤ rest.length := by
          simp only [List.dropWhile_cons, sameKey, and_self, decide_True, if_true]
          exact dropWhile_length_le _ _
        simp only [List.length_cons] at hl
        omega
      have hsub : ((it :: rest).dropWhile (sameKey it.mat it.mesh)).Sublist (it :: rest) :=
        List.dropWhile_sublist _
      have hs' := hs.sublist hsub
      rw [batchLoop_cons, List.map_cons, List.nodup_cons]
      refine ⟨?_, ih _ hlen hs'⟩
      intro hmem
      obtain ⟨b', hb', hkey⟩ := List.mem_map.mp hmem
      obtain ⟨gs, hflat, hcov⟩ := batchLoop_groups ((it :: rest).dropWhile (sameKey it.mat it.mesh))
      obtain ⟨x, hx, hxk⟩ := (forall₂_covers_models hcov).2.2.2.1 b' hb'
      rw [hflat] at hx
      -- the remainder starts with an item of another key, and everything after it is no smaller
      have hdrop : (it :: rest).dropWhile (sameKey it.mat it.mesh)
          = rest.dropWhile (sameKey it.mat it.mesh) := by
        simp [List.dropWhile_cons, sameKey]
      rw [hdrop] at hx hs'
      have hxrest : x ∈ rest := (List.dropWhile_sublist _).subset hx
      have hle_it_x : itemLess x it = false := (List.pairwise_cons.mp hs).1 x hxrest
      have hxkey : x.mat = it.mat ∧ x.mesh = it.mesh := by
        have : x.key = (it.mat, it.mesh) := by rw [hxk, hkey]; rfl
        simpa [Item.key] using this
      cases hr : rest.dropWhile (sameKey it.mat it.mesh) with
      | nil => rw [hr] at hx; simp at hx
      | cons h t =>
        have hhead : sameKey it.mat it.mesh h = false := by
          have := List.head_dropWhile_not (sameKey it.mat it.mesh) rest (by rw [hr]; simp)
          simpa [hr] using this
        have hhrest : h ∈ rest := (List.dropWhile_sublist _).subset (by rw [hr]; simp)
        have hle_it_h : itemLess h it = false := (List.pairwise_cons.mp hs).1 h hhrest
        rw [hr] at hx hs'
        rcases List.mem_cons.mp hx with rfl | hxt
        · simp [sameKey, hxkey.1, hxkey.2] at hhead
        · have hle_h_x : itemLess x h = false := (List.pairwise_cons.mp hs').1 x hxt
          rw [itemLess_false_iff] at hle_it_h hle_h_x
          simp only [sameKey, decide_eq_false_iff_not] at hhead
          omega

theorem batchLoop_keys_nodup {μ : Type} (l : List (Item μ))
    (hs : l.Pairwise (fun a b => itemLess b a = false)) :
    ((batchLoop l).map Batch.key).Nodup :=
  batchLoop_keys_nodup_aux l.length l (le_refl _) hs

/-- On a sorted list the scan opens one batch per distinct key. -/
theorem batchLoop_length_sorted {μ : Type} (l : List (Item μ))
    (hs : l.Pairwise (fun a b => itemLess b a = false)) :
    (batchLoop l).length = (l.map Item.key).dedup.length := by
  obtain ⟨gs, hflat, hcov⟩ := batchLoop_groups l
  obtain ⟨_, _, _, h4, h5⟩ := forall₂_covers_models hcov
  rw [hflat] at h4 h5
  have hperm : ((batchLoop l).map Batch.key).Perm (l.map Item.key).dedup := by
    rw [List.perm_ext_iff_of_nodup (batchLoop_keys_nodup l hs) (List.nodup_dedup _)]
    intro k
    rw [List.mem_dedup, List.mem_map, List.mem_map]
    constructor
    · rintro ⟨b, hb, rfl⟩
      obtain ⟨it, hit, hk⟩ := h4 b hb
      exact ⟨it, hit, hk⟩
    · rintro ⟨it, hit, rfl⟩
      obtain ⟨b, hb, hk⟩ := h5 it hit
      exact ⟨b, hb, hk⟩
  simpa using hperm.length_eq

/-! ## Reading the trace of the batched pass -/

theorem uploads_flatMap_drawBatch {μ : Type} [Mul μ] (ctx : SceneCtx μ) (bs : List (Batch μ))
    (tail : List (GLCall μ)) :
    uploads (bs.flatMap (drawBatch ctx) ++ tail) =
      bs.map (fun b => b.models.take b.instanceCount) ++ uploads tail := by
  induction bs with
  | nil => simp
  | cons b bs ih =>
    have h1 : ∀ t : List (GLCall μ),
        uploads (drawBatch ctx b ++ t) = b.models.take b.instanceCount :: uploads t :=
      fun _ => rfl
    rw [List.flatMap_cons, List.append_assoc, h1, ih]
    rfl

theorem drawCounts_flatMap_drawBatch {μ : Type} [Mul μ] (ctx : SceneCtx μ) (bs : List (Batch μ))
    (tail : List (GLCall μ)) :
    drawCounts (bs.flatMap (drawBatch ctx) ++ tail) =
      bs.map Batch.instanceCount ++ drawCounts tail := by
  induction bs with
  | nil => simp
  | cons b bs ih =>
    have h1 : ∀ t : List (GLCall μ),
        drawCounts (drawBatch ctx b ++ t) = b.instanceCount :: drawCounts t :=
      fun _ => rfl
    rw [List.flatMap_cons, List.append_assoc, h1, ih]
    rfl

theorem pairUploads_flatMap_drawBatch {μ : Type} [Mul μ] (ctx : SceneCtx μ)
    (bs : List (Batch μ)) :
    ∀ st : PairState μ, st.pending = none →
      pairUploads st (bs.flatMap (drawBatch ctx) ++ [GLCall.shaderUnbind]) =
        some (bs.map (Batch.instanced ctx)) := by
  induction bs with
  | nil =>
    intro st hst
    simp [pairUploads, hst]
  | cons b bs ih =>
    intro st hst
    have h1 : ∀ t : List (GLCall μ),
        pairUploads st (drawBatch ctx b ++ t) =
          (pairUploads { boundVbo := (ctx.meshes b.mesh).instanceVBO, boundVao := 0,
                         pending := none } t).map (fun ds => Batch.instanced ctx b :: ds) := by
      intro t
      simp only [drawBatch, List.cons_append, List.nil_append, pairUploads, hst]
      rfl
    rw [List.flatMap_cons, List.append_assoc, h1, ih _ rfl]
    rfl

theorem sort_nil {α : Type} {less : α → α → Bool} (S : StdSort α less) : S.sort [] = [] :=
  List.perm_nil.mp (S.perm [])

theorem drawItems_eq {μ : Type} [Mul μ] (S : StdSort (Item μ) itemLess) (ctx : SceneCtx μ)
    (items : List (Item μ)) :
    drawItems S ctx items = [] ∧ batchLoop (S.sort items) = [] ∨
    drawItems S ctx items =
      (batchLoop (S.sort items)).flatMap (drawBatch ctx) ++ [GLCall.shaderUnbind] := by
  cases items with
  | nil => left; simp [drawItems, sort_nil, batchLoop_nil]
  | cons a l => right; simp [drawItems]

theorem drawItems_uploads {μ : Type} [Mul μ] (S : StdSort (Item μ) itemLess) (ctx : SceneCtx μ)
    (items : List (Item μ)) :
    uploads (drawItems S ctx items) =
      (batchLoop (S.sort items)).map (fun b => b.models.take b.instanceCount) := by
  rcases drawItems_eq S ctx items with ⟨h1, h2⟩ | h
  · rw [h1, h2]; rfl
  · rw [h, uploads_flatMap_drawBatch]; simp [uploads]

theorem drawItems_drawCounts {μ : Type} [Mul μ] (S : StdSort (Item μ) itemLess)
    (ctx : SceneCtx μ) (items : List (Item μ)) :
    drawCounts (drawItems S ctx items) = (batchLoop (S.sort items)).map Batch.instanceCount := by
  rcases drawItems_eq S ctx items with ⟨h1, h2⟩ | h
  · rw [h1, h2]; rfl
  · rw [h, drawCounts_flatMap_drawBatch]; simp [drawCounts]

theorem drawItems_pairUploads {μ : Type} [Mul μ] (S : StdSort (Item μ) itemLess)
    (ctx : SceneCtx μ) (items : List (Item μ)) (st : PairState μ) (hst : st.pending = none) :
    pairUploads st (drawItems S ctx items) =
      some ((batchLoop (S.sort items)).map (Batch.instanced ctx)) := by
  rcases drawItems_eq S ctx items with ⟨h1, h2⟩ | h
  · rw [h1, h2]; simp [pairUploads, hst]
  · rw [h, pairUploads_flatMap_drawBatch ctx _ st hst]

theorem take_models_eq {μ : Type} {bs : List (Batch μ)}
    (h : ∀ b ∈ bs, b.instanceCount = b.models.length) :
    bs.map (fun b => b.models.take b.instanceCount) = bs.map Batch.models := by
  apply List.map_congr_left
  intro b hb
  rw [h b hb, List.take_length]

/-- When every item of a non-empty list carries one key, the scan yields one batch with all
the matrices. -/
theorem batchLoop_single_key {μ : Type} (mat mesh : Nat) (l : List (Item μ)) (hne : l ≠ [])
    (hk : ∀ it ∈ l, it.mat = mat ∧ it.mesh = mesh) :
    batchLoop l = [{ mat := mat, mesh := mesh, models := l.map Item.model,
                     instanceCount := l.length }] := by
  obtain ⟨it, rest, rfl⟩ := List.exists_cons_of_ne_nil hne
  have hit := hk it (List.mem_cons_self _ _)
  have hall : ∀ x ∈ it :: rest, sameKey it.mat it.mesh x = true := by
    intro x hx
    have := hk x hx
    simp [sameKey, this.1, this.2, hit.1, hit.2]
  have htake : (it :: rest).takeWhile (sameKey it.mat it.mesh) = it :: rest :=
    List.takeWhile_eq_self_iff.mpr hall
  have hdrop : (it :: rest).dropWhile (sameKey it.mat it.mesh) = [] :=
    List.dropWhile_eq_nil_iff.mpr hall
  rw [batchLoop_cons, htake, hdrop, batchLoop_nil, hit.1, hit.2]

/-! ## The batched pass on a concrete item list -/

/-- Three items, two of them sharing material 1 and mesh 5: two uploads, two draws. -/
theorem drawItems_sample :
    uploads (drawItems (insertionStdSort Int) sampleSceneCtx
      [⟨1, 5, 1⟩, ⟨2, 5, 3⟩, ⟨1, 5, 7⟩]) = [[1, 7], [3]] ∧
    drawCounts (drawItems (insertionStdSort Int) sampleSceneCtx
      [⟨1, 5, 1⟩, ⟨2, 5, 3⟩, ⟨1, 5, 7⟩]) = [2, 1] ∧
    pairUploads PairState.init (drawItems (insertionStdSort Int) sampleSceneCtx
      [⟨1, 5, 1⟩, ⟨2, 5, 3⟩, ⟨1, 5, 7⟩]) =
      some [⟨205, [1, 7], 105, 36, 2⟩, ⟨205, [3], 105, 36, 1⟩] ∧
    drawItems (insertionStdSort Int) sampleSceneCtx [] = [] := by
  decide

/-! ## Claims C1 to C4: the batches of `RenderSceneBatched` -/

/-- C1: for every list of draw items and every admissible `std::sort`, the arrays uploaded by
the batches of `RenderSceneBatched`, concatenated, are a permutation of the model matrices of the
input items, and the instance counts of the draws sum to the number of items. -/
theorem C1_batches_partition_input {μ : Type} [Mul μ] (S : StdSort (Item μ) itemLess)
    (ctx : SceneCtx μ) (items : List (Item μ)) :
    ((uploads (drawItems S ctx items)).flatten).Perm (items.map Item.model) ∧
    ((batchLoop (S.sort items)).map Batch.models).flatten.Perm (items.map Item.model) ∧
    (drawCounts (drawItems S ctx items)).sum = items.length := by
  obtain ⟨gs, hflat, hcov⟩ := batchLoop_groups (S.sort items)
  obtain ⟨h1, h2, h3, _, _⟩ := forall₂_covers_models hcov
  rw [hflat] at h1 h2
  have hperm : ((batchLoop (S.sort items)).map Batch.models).flatten.Perm
      (items.map Item.model) := by
    rw [h1]
    exact (S.perm items).map _
  refine ⟨?_, hperm, ?_⟩
  · rw [drawItems_uploads, take_models_eq h3]
    exact hperm
  · rw [drawItems_drawCounts, h2]
    exact (S.perm items).length_eq

/-- C2: the number of instanced draws issued by `RenderSceneBatched` is the number of distinct
`(material, mesh)` pairs among the items, no two batches carry the same pair, and two items
sharing `(A, M)` give exactly one batch, for `(A, M)`, holding their two matrices. -/
theorem C2_one_batch_per_distinct_key {μ : Type} [Mul μ] (S : StdSort (Item μ) itemLess)
    (ctx : SceneCtx μ) (items : List (Item μ)) :
    (drawCounts (drawItems S ctx items)).length = (items.map Item.key).dedup.length ∧
    (batchLoop (S.sort items)).length = (items.map Item.key).dedup.length ∧
    ((batchLoop (S.sort items)).map Batch.key).Nodup ∧
    (∀ (A M : Nat) (I T : μ), ∃ ms : List μ,
      batchLoop (S.sort [⟨A, M, I⟩, ⟨A, M, T⟩]) =
        [{ mat := A, mesh := M, models := ms, instanceCount := 2 }] ∧ ms.Perm [I, T]) := by
  have hlen : (batchLoop (S.sort items)).length = (items.map Item.key).dedup.length := by
    rw [batchLoop_length_sorted _ (S.sorted items)]
    exact (((S.perm items).map Item.key).dedup).length_eq
  refine ⟨?_, hlen, batchLoop_keys_nodup _ (S.sorted items), ?_⟩
  · rw [drawItems_drawCounts, List.length_map, hlen]
  · intro A M I T
    have hp := S.perm [⟨A, M, I⟩, ⟨A, M, T⟩]
    have hne : S.sort [⟨A, M, I⟩, ⟨A, M, T⟩] ≠ [] := by
      intro h
      have := hp.length_eq
      rw [h] at this
      simp at this
    have hk : ∀ it ∈ S.sort [⟨A, M, I⟩, ⟨A, M, T⟩], it.mat = A ∧ it.mesh = M := by
      intro it hit
      have := hp.subset hit
      simp only [List.mem_cons, List.mem_singleton, List.not_mem_nil, or_false] at this
      rcases this with rfl | rfl <;> exact ⟨rfl, rfl⟩
    refine ⟨(S.sort [⟨A, M, I⟩, ⟨A, M, T⟩]).map Item.model, ?_, ?_⟩
    · rw [batchLoop_single_key A M _ hne hk, hp.length_eq]
      rfl
    · exact hp.map Item.model

/-- C3: the batches of `RenderSceneBatched` are consecutive stretches of the sorted item list;
the matrices of a batch are those of the items of its stretch, every one of which has the
material that the batch applies and the mesh whose vertex array the batch draws. -/
theorem C3_batches_homogeneous {μ : Type} [Mul μ] (S : StdSort (Item μ) itemLess)
    (ctx : SceneCtx μ) (items : List (Item μ)) :
    ∃ groups : List (List (Item μ)),
      groups.flatten = S.sort items ∧
      List.Forall₂
        (fun (b : Batch μ) (g : List (Item μ)) =>
          b.models = g.map Item.model ∧
          (∀ it ∈ g, it.mat = b.mat ∧ it.mesh = b.mesh) ∧
          GLCall.materialApply b.mat ∈ drawBatch ctx b ∧
          GLCall.bindVertexArray (ctx.meshes b.mesh).VAO ∈ drawBatch ctx b)
        (batchLoop (S.sort items)) groups := by
  obtain ⟨gs, hflat, hcov⟩ := batchLoop_groups (S.sort items)
  refine ⟨gs, hflat, hcov.imp ?_⟩
  intro b g h
  exact ⟨h.2.1, h.2.2.2, by simp [drawBatch], by simp [drawBatch]⟩

/-- C4: in the trace of `RenderSceneBatched` every instance-buffer upload is consumed by an
instanced draw before any other upload; the uploads correspond, in order, to consecutive
stretches of the sorted item list, each upload holding exactly the matrices of its stretch in
list order, sent to the instance buffer of the mesh of the stretch, and the draw that follows
uses the vertex array of that mesh with instance count the length of the stretch. -/
theorem C4_upload_then_draw {μ : Type} [Mul μ] (S : StdSort (Item μ) itemLess)
    (ctx : SceneCtx μ) (items : List (Item μ)) :
    ∃ (groups : List (List (Item μ))) (draws : List (InstancedDraw μ)),
      groups.flatten = S.sort items ∧
      pairUploads PairState.init (drawItems S ctx items) = some draws ∧
      List.Forall₂
        (fun (d : InstancedDraw μ) (g : List (Item μ)) =>
          d.data = g.map Item.model ∧ d.instanceCount = g.length ∧
          ∀ it ∈ g, d.vbo = (ctx.meshes it.mesh).instanceVBO ∧
            d.vao = (ctx.meshes it.mesh).VAO ∧
            d.indexCount = (ctx.meshes it.mesh).indexCount)
        draws groups := by
  obtain ⟨gs, hflat, hcov⟩ := batchLoop_groups (S.sort items)
  refine ⟨gs, _, hflat, drawItems_pairUploads S ctx items PairState.init rfl, ?_⟩
  rw [List.forall₂_map_left_iff]
  refine hcov.imp ?_
  intro b g h
  obtain ⟨_, hm, hc, hk⟩ := h
  refine ⟨?_, hc, ?_⟩
  · simp only [Batch.instanced]
    rw [hc, hm, ← List.length_map g Item.model, List.take_length]
  · intro it hit
    have := hk it hit
    simp [Batch.instanced, this.2]

/-! ## Camera -/

theorem UpdateCameraVectors_pitch {K : Type} [Field K] (m : Libm K) (c : Camera K) :
    (c.UpdateCameraVectors m).m_pitch = c.m_pitch ∧
    (c.UpdateCameraVectors m).m_mouse_sensitivity = c.m_mouse_sensitivity := ⟨rfl, rfl⟩

theorem ProcessMouseInput_sensitivity {K : Type} [LinearOrderedField K] (m : Libm K)
    (c : Camera K) (dx dy : K) (b : Bool) :
    (c.ProcessMouseInput m dx dy b).m_mouse_sensitivity = c.m_mouse_sensitivity := by
  unfold Camera.ProcessMouseInput
  cases b <;> simp only [Camera.UpdateCameraVectors] <;> split_ifs <;> rfl

theorem ProcessMouseInput_pitch_constrained {K : Type} [LinearOrderedField K] (m : Libm K)
    (c : Camera K) (dx dy : K) :
    (c.ProcessMouseInput m dx dy true).m_pitch =
      clamp (c.m_pitch + dy * c.m_mouse_sensitivity) (-89) 89 := by
  have h89 : (-89 : K) < 89 := by norm_num
  simp only [Camera.ProcessMouseInput, Camera.UpdateCameraVectors, clamp, if_true]
  by_cases h1 : c.m_pitch + dy * c.m_mouse_sensitivity > 89
  · have h2 : ¬ ((89 : K) < -89) := not_lt.mpr h89.le
    have h3 : (-89 : K) ≤ c.m_pitch + dy * c.m_mouse_sensitivity := le_trans h89.le h1.le
    simp [h1, h2, max_eq_left h3, min_eq_right h1.le]
  · by_cases h2 : c.m_pitch + dy * c.m_mouse_sensitivity < -89
    · simp [h1, h2, max_eq_right h2.le, min_eq_left h89.le]
    · simp [h1, h2, max_eq_left (not_lt.mp h2), min_eq_left (not_lt.mp h1)]

theorem clamp_mem {K : Type} [LinearOrder K] (x lo hi : K) (h : lo ≤ hi) :
    lo ≤ clamp x lo hi ∧ clamp x lo hi ≤ hi :=
  ⟨le_min (le_max_right _ _) h, min_le_right _ _⟩

theorem mouseInputs_append {K : Type} [LinearOrderedField K] (m : Libm K) (b : Bool)
    (c : Camera K) (moves : List (K × K)) (mv : K × K) :
    Camera.mouseInputs m b c (moves ++ [mv]) =
      (Camera.mouseInputs m b c moves).ProcessMouseInput m mv.1 mv.2 b := by
  simp [Camera.mouseInputs, List.foldl_append]

/-- C5: with `constrain_pitch` the new pitch is `clamp(pitch + dy*sensitivity, -89, 89)`, so after
any non-empty run of constrained calls the pitch lies in [-89, 89]; without it the new pitch is
`pitch + dy*sensitivity`, which for a non-zero sensitivity exceeds every bound for a suitable
`dy`. -/
theorem C5_pitch_clamp {K : Type} [LinearOrderedField K] (m : Libm K) (c : Camera K)
    (dx dy : K) :
    (c.ProcessMouseInput m dx dy true).m_pitch =
      clamp (c.m_pitch + dy * c.m_mouse_sensitivity) (-89) 89 ∧
    (∀ moves : List (K × K), moves ≠ [] →
      -89 ≤ (Camera.mouseInputs m true c moves).m_pitch ∧
      (Camera.mouseInputs m true c moves).m_pitch ≤ 89) ∧
    (c.ProcessMouseInput m dx dy false).m_pitch = c.m_pitch + dy * c.m_mouse_sensitivity ∧
    (c.m_mouse_sensitivity ≠ 0 →
      ∀ B : K, ∃ dy' : K, B < (c.ProcessMouseInput m dx dy' false).m_pitch) := by
  refine ⟨ProcessMouseInput_pitch_constrained m c dx dy, ?_, ?_, ?_⟩
  · intro moves hne
    obtain ⟨init, mv, rfl⟩ := (List.eq_nil_or_concat moves).resolve_left hne
    rw [List.concat_eq_append, mouseInputs_append, ProcessMouseInput_pitch_constrained]
    exact clamp_mem _ _ _ (by norm_num)
  · simp [Camera.ProcessMouseInput, Camera.UpdateCameraVectors]
  · intro hs B
    refine ⟨(B + 1 - c.m_pitch) / c.m_mouse_sensitivity, ?_⟩
    simp only [Camera.ProcessMouseInput, Camera.UpdateCameraVectors]
    simp [div_mul_cancel₀ _ hs]

/-- Witness for C5 on a concrete camera: one huge constrained move stays within [-89, 89], and
an unconstrained move passes the bound 89. -/
theorem C5_pitch_clamp_witness :
    (-89 ≤ (Camera.mouseInputs smallAngle true sampleCamera [(0, 100000)]).m_pitch ∧
      (Camera.mouseInputs smallAngle true sampleCamera [(0, 100000)]).m_pitch ≤ 89) ∧
    ∃ dy' : ℚ, 89 < (sampleCamera.ProcessMouseInput smallAngle 0 dy' false).m_pitch :=
  ⟨(C5_pitch_clamp smallAngle sampleCamera 0 0).2.1 [(0, 100000)] (by simp),
   (C5_pitch_clamp smallAngle sampleCamera 0 0).2.2.2 (by norm_num [sampleCamera]) 89⟩

/-- C6: after `ProcessMouseScroll` the zoom is `clamp(zoom - yOffset, 1, 90)` and so lies in
[1, 90]. -/
theorem C6_zoom_clamp {K : Type} [LinearOrderedField K] (m : Libm K) (c : Camera K)
    (yOffset : K) :
    (c.ProcessMouseScroll m yOffset).m_zoom = clamp (c.m_zoom - yOffset) 1 90 ∧
    1 ≤ (c.ProcessMouseScroll m yOffset).m_zoom ∧
    (c.ProcessMouseScroll m yOffset).m_zoom ≤ 90 := by
  have h190 : (1 : K) < 90 := by norm_num
  have key : (c.ProcessMouseScroll m yOffset).m_zoom = clamp (c.m_zoom - yOffset) 1 90 := by
    simp only [Camera.ProcessMouseScroll, Camera.UpdateProjectionMatrix, clamp]
    by_cases h1 : c.m_zoom - yOffset < 1
    · have h2 : ¬ ((1 : K) > 90) := not_lt.mpr h190.le
      simp [h1, h2, max_eq_right h1.le, min_eq_left h190.le]
    · by_cases h2 : c.m_zoom - yOffset > 90
      · simp [h1, h2, max_eq_left (not_lt.mp h1), min_eq_right h2.le]
      · simp [h1, h2, max_eq_left (not_lt.mp h1), min_eq_left (not_lt.mp h2)]
  rw [key]
  exact ⟨rfl, clamp_mem _ _ _ h190.le⟩

/-- C7: for a non-zero aspect ratio `a`, the projection matrix `P` cached by `SetAspectRatio(a)`
and returned by `GetProjectionMatrix()` satisfies `P[0][0] * a = P[1][1]`, whatever the zoom. -/
theorem C7_projection_aspect {K : Type} [Field K] (m : Libm K) (c : Camera K) (a : K)
    (ha : a ≠ 0) :
    (c.SetAspectRatio m a).GetProjectionMatrix.c0.x * a =
      (c.SetAspectRatio m a).GetProjectionMatrix.c1.y := by
  simp only [Camera.SetAspectRatio, Camera.UpdateProjectionMatrix, Camera.GetProjectionMatrix,
    perspective]
  by_cases ht : m.tan (radians c.m_zoom / 2) = 0
  · simp [ht]
  · field_simp

/-- Witness for C7: the sample camera at aspect ratio 4/3. -/
theorem C7_projection_aspect_witness :
    (sampleCamera.SetAspectRatio smallAngle (4 / 3)).GetProjectionMatrix.c0.x * (4 / 3) =
      (sampleCamera.SetAspectRatio smallAngle (4 / 3)).GetProjectionMatrix.c1.y :=
  C7_projection_aspect smallAngle sampleCamera (4 / 3) (by norm_num)

/-- C8: a resize request with `width <= 0` or `height <= 0` changes nothing: `InitFrameBuffer`
returns the renderer as it was (handles and stored size included) having only logged, the
viewport-panel block of `ShowDebugUI` returns it having done nothing, and neither trace holds a
GPU delete or allocate call. -/
theorem C8_nonpositive_resize_is_noop {K μ : Type} [Field K] (m : Libm K) (complete : Bool)
    (width height : Int) (r : Renderer K) (h : width ≤ 0 ∨ height ≤ 0) :
    (InitFrameBuffer m complete width height r : Renderer K × List (GLCall μ)) =
      (r, [GLCall.log]) ∧
    (ShowDebugUI_viewport m complete width height r : Renderer K × List (GLCall μ)) = (r, []) ∧
    (∀ c ∈ (InitFrameBuffer m complete width height r : Renderer K × List (GLCall μ)).2,
      c.isAllocOrDelete = false) ∧
    (∀ c ∈ (ShowDebugUI_viewport m complete width height r : Renderer K × List (GLCall μ)).2,
      c.isAllocOrDelete = false) := by
  have h1 : (InitFrameBuffer m complete width height r : Renderer K × List (GLCall μ)) =
      (r, [GLCall.log]) := by
    simp [InitFrameBuffer, h]
  have h2 : (ShowDebugUI_viewport m complete width height r : Renderer K × List (GLCall μ)) =
      (r, []) := by
    have : ¬ (width > 0 ∧ height > 0 ∧
        (width ≠ r.m_frame_buffer.render_width ∨ height ≠ r.m_frame_buffer.render_height)) := by
      intro hh
      omega
    simp only [ShowDebugUI_viewport, this, if_false]
  refine ⟨h1, h2, ?_, ?_⟩
  · rw [h1]
    intro c hc
    simp only [List.mem_singleton] at hc
    subst hc
    rfl
  · rw [h2]
    intro c hc
    simp at hc

/-- Witness for C8: resizing the sample renderer to 0 x 600 leaves it as it was. -/
theorem C8_nonpositive_resize_is_noop_witness :
    (InitFrameBuffer smallAngle true 0 600 sampleRenderer : Renderer ℚ × List (GLCall Int)) =
      (sampleRenderer, [GLCall.log]) :=
  (C8_nonpositive_resize_is_noop smallAngle true 0 600 sampleRenderer (Or.inl (le_refl 0))).1

/-- C9: the pipeline steps of one `Tick`, in program order, are: bind and clear the window
framebuffer, uniform sync, shadow pass unless wireframe, bind the off-screen target, background
pass unless wireframe, batched geometry pass, unbind, present; in wireframe mode neither the
shadow pass nor the background pass runs and the geometry pass still does. -/
theorem C9_tick_pass_order (m_wireframe_mode : Bool) :
    (Tick m_wireframe_mode).filter Step.isPipeline =
      [Step.BindWindowBuffer, Step.UpdateRenderData] ++
      (if m_wireframe_mode then [] else [Step.RenderShadowMap]) ++
      [Step.BindFrameBuffer] ++
      (if m_wireframe_mode then [] else [Step.RenderFullScreenQuad]) ++
      [Step.RenderSceneBatched, Step.unbindFramebuffer, Step.swapBuffers] ∧
    Step.RenderShadowMap ∉ Tick true ∧
    Step.RenderFullScreenQuad ∉ Tick true ∧
    Step.RenderSceneBatched ∈ Tick true ∧
    Step.RenderSceneBatched ∈ Tick false := by
  cases m_wireframe_mode <;> decide

/-! ## Exit state of the shadow pass -/

theorem run_append {μ : Type} (s : GLState) (t1 t2 : List (GLCall μ)) :
    s.run (t1 ++ t2) = (s.run t1).run t2 := by
  simp [GLState.run, List.foldl_append]

theorem run_drawShadowBatches {μ : Type} (meshes : Nat → Mesh) (bs : List (ShadowBatch μ))
    (s : GLState) : s.run (bs.flatMap (drawShadowBatch meshes)) = s := by
  induction bs with
  | nil => rfl
  | cons b bs ih =>
    have h1 : s.run (drawShadowBatch meshes b) = s := rfl
    rw [List.flatMap_cons, run_append, h1, ih]

/-- On the path of `RenderShadowMap` that draws, the exit state is the restored one. -/
theorem RenderShadowMap_restores_when_drawing {μ : Type} (S : StdSort (ShadowItem μ) shadowLess)
    (env : ShadowEnv μ) (registry : List (Entity μ)) (sm : ShadowMap μ) (s : GLState)
    (h : (gatherShadowMeshes registry ++ gatherShadowModels registry).isEmpty = false) :
    (s.run (RenderShadowMap S env registry sm).2).cullFaceMode = Face.back ∧
    (s.run (RenderShadowMap S env registry sm).2).cullFaceEnabled = false ∧
    (s.run (RenderShadowMap S env registry sm).2).polygonOffsetFill = false ∧
    (s.run (RenderShadowMap S env registry sm).2).framebuffer = 0 ∧
    (s.run (RenderShadowMap S env registry sm).2).viewport =
      (env.windowWidth, env.windowHeight) := by
  simp only [RenderShadowMap, h, Bool.false_eq_true, if_false, run_append,
    run_drawShadowBatches]
  exact ⟨rfl, rfl, rfl, rfl, rfl⟩

/-- C10 (the code departs from the claim): when no entity casts a shadow, `RenderShadowMap`
returns early with back-face cull mode, culling off, polygon offset off and the default
framebuffer bound, but with the viewport still at the shadow-map resolution, not at the window
framebuffer size. -/
theorem C10_early_return_leaves_shadow_viewport :
    (sampleGLState.run
      (RenderShadowMap (insertionShadowSort Int) sampleShadowEnv [] sampleShadowMap).2).cullFaceMode
        = Face.back ∧
    (sampleGLState.run
      (RenderShadowMap (insertionShadowSort Int) sampleShadowEnv [] sampleShadowMap).2).cullFaceEnabled
        = false ∧
    (sampleGLState.run
      (RenderShadowMap (insertionShadowSort Int) sampleShadowEnv [] sampleShadowMap).2).polygonOffsetFill
        = false ∧
    (sampleGLState.run
      (RenderShadowMap (insertionShadowSort Int) sampleShadowEnv [] sampleShadowMap).2).framebuffer
        = 0 ∧
    (sampleGLState.run
      (RenderShadowMap (insertionShadowSort Int) sampleShadowEnv [] sampleShadowMap).2).viewport
        = (2048, 2048) ∧
    (sampleGLState.run
      (RenderShadowMap (insertionShadowSort Int) sampleShadowEnv [] sampleShadowMap).2).viewport
        ≠ (sampleShadowEnv.windowWidth, sampleShadowEnv.windowHeight) := by
  decide

/-- The drawing path on one shadow caster: the viewport is back at the window size on exit. -/
theorem RenderShadowMap_sample_drawing :
    (sampleGLState.run (RenderShadowMap (insertionShadowSort Int) sampleShadowEnv
      [⟨some 1, some 4, none, none⟩] sampleShadowMap).2).viewport = (1280, 720) ∧
    drawCounts (RenderShadowMap (insertionShadowSort Int) sampleShadowEnv
      [⟨some 1, some 4, none, none⟩] sampleShadowMap).2 = [1] := by
  decide

/-! ## Claims C11 and C12: aspect ratio and cached projection -/

/-- On valid dimensions `InitFrameBuffer` derives the aspect ratio from the stored render size,
which it does not assign. -/
theorem InitFrameBuffer_aspect {K μ : Type} [LinearOrderedField K] (m : Libm K) (complete : Bool)
    (width height : Int) (r : Renderer K) (hw : 0 < width) (hh : 0 < height) :
    ((InitFrameBuffer m complete width height r : Renderer K × List (GLCall μ)).1).m_camera.m_aspect_ratio
      = (r.m_frame_buffer.render_width : K) / (r.m_frame_buffer.render_height : K) ∧
    ((InitFrameBuffer m complete width height r : Renderer K × List (GLCall μ)).1).m_frame_buffer.render_width
      = r.m_frame_buffer.render_width ∧
    ((InitFrameBuffer m complete width height r : Renderer K × List (GLCall μ)).1).m_frame_buffer.render_height
      = r.m_frame_buffer.render_height := by
  have h : ¬ (width ≤ 0 ∨ height ≤ 0) := by omega
  simp [InitFrameBuffer, h, Camera.SetAspectRatio, Camera.UpdateProjectionMatrix]

/-- C11 (the code departs from the claim): `InitFrameBuffer(1280, 720)` on a renderer whose
stored render size is 800 x 600 allocates a 1280 x 720 target and sets the aspect ratio of the
camera to 800 / 600 = 4/3, not to 1280 / 720 = 16/9. -/
theorem C11_aspect_ratio_from_stored_size :
    ((InitFrameBuffer smallAngle true 1280 720 sampleRenderer :
        Renderer ℚ × List (GLCall Int)).1).m_camera.m_aspect_ratio = 4 / 3 ∧
    ((InitFrameBuffer smallAngle true 1280 720 sampleRenderer :
        Renderer ℚ × List (GLCall Int)).1).m_camera.m_aspect_ratio ≠ (1280 : ℚ) / 720 ∧
    GLCall.texImage2D 1280 720 ∈
      (InitFrameBuffer smallAngle true 1280 720 sampleRenderer :
        Renderer ℚ × List (GLCall Int)).2 := by
  have h := (@InitFrameBuffer_aspect ℚ Int _ smallAngle true 1280 720 sampleRenderer
    (by norm_num) (by norm_num)).1
  refine ⟨?_, ?_, ?_⟩
  · rw [h]; norm_num [sampleRenderer]
  · rw [h]; norm_num [sampleRenderer]
  · simp [InitFrameBuffer]

/-- The viewport-panel block stores the new size first, so there the aspect ratio is that of
the size passed on. -/
theorem ShowDebugUI_viewport_aspect {K μ : Type} [LinearOrderedField K] (m : Libm K)
    (complete : Bool) (newWidth newHeight : Int) (r : Renderer K) (hw : 0 < newWidth)
    (hh : 0 < newHeight)
    (hne : newWidth ≠ r.m_frame_buffer.render_width ∨
      newHeight ≠ r.m_frame_buffer.render_height) :
    ((ShowDebugUI_viewport m complete newWidth newHeight r :
        Renderer K × List (GLCall μ)).1).m_camera.m_aspect_ratio
      = (newWidth : K) / (newHeight : K) := by
  have h : newWidth > 0 ∧ newHeight > 0 ∧
      (newWidth ≠ r.m_frame_buffer.render_width ∨
        newHeight ≠ r.m_frame_buffer.render_height) := ⟨hw, hh, hne⟩
  simp only [ShowDebugUI_viewport, h, and_self, if_true]
  rw [(InitFrameBuffer_aspect m complete newWidth newHeight _ hw hh).1]

/-! ## The cached projection matrix -/

theorem SetAspectRatio_fresh {K : Type} [Field K] (m : Libm K) (c : Camera K) (a : K) :
    (c.SetAspectRatio m a).ProjectionFresh m := rfl

theorem ProcessMouseScroll_fresh {K : Type} [LinearOrderedField K] (m : Libm K) (c : Camera K)
    (y : K) : (c.ProcessMouseScroll m y).ProjectionFresh m := by
  simp only [Camera.ProcessMouseScroll, Camera.ProjectionFresh, Camera.UpdateProjectionMatrix,
    Camera.GetProjectionMatrix]

theorem ProcessMouseInput_fresh {K : Type} [LinearOrderedField K] (m : Libm K) (c : Camera K)
    (dx dy : K) (b : Bool) (h : c.ProjectionFresh m) :
    (c.ProcessMouseInput m dx dy b).ProjectionFresh m := by
  have h1 : (c.ProcessMouseInput m dx dy b).m_projection_matrix = c.m_projection_matrix := by
    unfold Camera.ProcessMouseInput
    cases b <;> simp only [Camera.UpdateCameraVectors] <;> split_ifs <;> rfl
  have h2 : (c.ProcessMouseInput m dx dy b).m_zoom = c.m_zoom := by
    unfold Camera.ProcessMouseInput
    cases b <;> simp only [Camera.UpdateCameraVectors] <;> split_ifs <;> rfl
  have h3 : (c.ProcessMouseInput m dx dy b).m_aspect_ratio = c.m_aspect_ratio := by
    unfold Camera.ProcessMouseInput
    cases b <;> simp only [Camera.UpdateCameraVectors] <;> split_ifs <;> rfl
  unfold Camera.ProjectionFresh Camera.GetProjectionMatrix at *
  rw [h1, h2, h3, h]

/-- Every call keeps a fresh cache fresh. -/
theorem apply_fresh {K : Type} [LinearOrderedField K] (m : Libm K) (c : Camera K)
    (op : CameraOp K) (h : c.ProjectionFresh m) : (c.apply m op).ProjectionFresh m := by
  cases op with
  | SetAspectRatio a => exact SetAspectRatio_fresh m c a
  | ProcessMouseScroll y => exact ProcessMouseScroll_fresh m c y
  | ProcessMouseInput dx dy b => exact ProcessMouseInput_fresh m c dx dy b h

/-- From a camera with a fresh cache, every run of calls ends with a fresh cache. -/
theorem foldl_apply_fresh {K : Type} [LinearOrderedField K] (m : Libm K) (ops : List (CameraOp K)) :
    ∀ c : Camera K, c.ProjectionFresh m → (ops.foldl (Camera.apply m) c).ProjectionFresh m := by
  induction ops with
  | nil => intro c h; exact h
  | cons op ops ih => intro c h; exact ih _ (apply_fresh m c op h)

/-- The constructor caches the matrix of the zoom the member held on entry, then sets zoom 60. -/
theorem Camera_new_matrix {K : Type} [Field K] (m : Libm K) (d : CameraDefaults K)
    (position : Vec3 K) (yaw pitch : K) :
    (Camera.new m d position yaw pitch).GetProjectionMatrix =
      perspective m (radians d.m_zoom) (16 / 9) (1 / 10) 1000 ∧
    (Camera.new m d position yaw pitch).m_zoom = 60 ∧
    (Camera.new m d position yaw pitch).m_aspect_ratio = 16 / 9 := ⟨rfl, rfl, rfl⟩

/-- C12 (the code departs from the claim): right after construction, with the zoom member
holding 45 on entry, the camera has zoom 60 and aspect ratio 16/9 but its cached matrix is the
perspective matrix of zoom 45, which differs from the one of zoom 60; the stale matrix survives
`ProcessMouseInput`. -/
theorem C12_constructor_caches_stale_matrix :
    (Camera.new smallAngle sampleCameraDefaults ⟨-10, 10, 10⟩ (-45) (-20)).m_zoom = 60 ∧
    (Camera.new smallAngle sampleCameraDefaults ⟨-10, 10, 10⟩ (-45) (-20)).GetProjectionMatrix
      = perspective smallAngle (radians 45) (16 / 9) (1 / 10) 1000 ∧
    ¬ (Camera.new smallAngle sampleCameraDefaults ⟨-10, 10, 10⟩ (-45) (-20)).ProjectionFresh
        smallAngle ∧
    ¬ ((Camera.new smallAngle sampleCameraDefaults ⟨-10, 10, 10⟩ (-45) (-20)).ProcessMouseInput
        smallAngle 3 4 true).ProjectionFresh smallAngle := by
  refine ⟨rfl, rfl, ?_, ?_⟩
  · intro h
    have h1 := congrArg (fun M : Mat4 ℚ => M.c1.y) h
    norm_num [Camera.new, Camera.UpdateProjectionMatrix, Camera.GetProjectionMatrix, perspective,
      radians, smallAngle, sampleCameraDefaults] at h1
  · intro h
    have h1 := congrArg (fun M : Mat4 ℚ => M.c1.y) h
    norm_num [Camera.new, Camera.UpdateProjectionMatrix, Camera.GetProjectionMatrix, perspective,
      radians, smallAngle, sampleCameraDefaults, Camera.ProcessMouseInput,
      Camera.UpdateCameraVectors] at h1

/-! ## Claims C13 and C14: the gathered item lists -/

theorem gatherShadowMeshes_nil_of_unmatched {μ : Type} (registry : List (Entity μ))
    (h : ∀ e ∈ registry, e.transform = none ∨ (e.mesh = none ∧ e.model = none)) :
    gatherShadowMeshes registry = [] := by
  induction registry with
  | nil => rfl
  | cons e es ih =>
    have he := h e (List.mem_cons_self _ _)
    have hes := ih (fun x hx => h x (List.mem_cons_of_mem _ hx))
    rcases he with ht | ⟨hm, _⟩
    · simp [gatherShadowMeshes, ht, hes]
    · cases e.transform <;> simp [gatherShadowMeshes, hm, hes]

theorem gatherShadowModels_nil_of_unmatched {μ : Type} (registry : List (Entity μ))
    (h : ∀ e ∈ registry, e.transform = none ∨ (e.mesh = none ∧ e.model = none)) :
    gatherShadowModels registry = [] := by
  induction registry with
  | nil => rfl
  | cons e es ih =>
    have he := h e (List.mem_cons_self _ _)
    have hes := ih (fun x hx => h x (List.mem_cons_of_mem _ hx))
    rcases he with ht | ⟨_, hm⟩
    · simp [gatherShadowModels, ht, hes]
    · cases e.transform <;> simp [gatherShadowModels, hm, hes]

theorem gatherMeshItems_nil_of_unmatched {μ : Type} (registry : List (Entity μ))
    (h : ∀ e ∈ registry, e.transform = none ∨ (e.mesh = none ∧ e.model = none)) :
    gatherMeshItems registry = [] := by
  induction registry with
  | nil => rfl
  | cons e es ih =>
    have he := h e (List.mem_cons_self _ _)
    have hes := ih (fun x hx => h x (List.mem_cons_of_mem _ hx))
    rcases he with ht | ⟨hm, _⟩
    · simp [gatherMeshItems, ht, hes]
    · cases e.transform <;> simp [gatherMeshItems, hm, hes]

theorem gatherModelItems_nil_of_unmatched {μ : Type} (registry : List (Entity μ))
    (h : ∀ e ∈ registry, e.transform = none ∨ (e.mesh = none ∧ e.model = none)) :
    gatherModelItems registry = [] := by
  induction registry with
  | nil => rfl
  | cons e es ih =>
    have he := h e (List.mem_cons_self _ _)
    have hes := ih (fun x hx => h x (List.mem_cons_of_mem _ hx))
    rcases he with ht | ⟨_, hm⟩
    · simp [gatherModelItems, ht, hes]
    · cases e.transform <;> simp [gatherModelItems, hm, hes]

/-- C13: when no entity of the scene store matches any queried component pattern,
`RenderShadowMap` and `RenderSceneBatched` upload no instance buffer and issue no draw call;
the batched pass makes no call at all. -/
theorem C13_empty_scene_no_upload_no_draw {μ : Type} [Mul μ]
    (Ss : StdSort (ShadowItem μ) shadowLess) (S : StdSort (Item μ) itemLess)
    (env : ShadowEnv μ) (ctx : SceneCtx μ) (sm : ShadowMap μ) (registry : List (Entity μ))
    (h : ∀ e ∈ registry, e.transform = none ∨ (e.mesh = none ∧ e.model = none)) :
    uploads (RenderShadowMap Ss env registry sm).2 = [] ∧
    drawCounts (RenderShadowMap Ss env registry sm).2 = [] ∧
    uploads (RenderSceneBatched S ctx registry) = [] ∧
    drawCounts (RenderSceneBatched S ctx registry) = [] ∧
    RenderSceneBatched S ctx registry = [] := by
  have h1 := gatherShadowMeshes_nil_of_unmatched registry h
  have h2 := gatherShadowModels_nil_of_unmatched registry h
  have h3 := gatherMeshItems_nil_of_unmatched registry h
  have h4 := gatherModelItems_nil_of_unmatched registry h
  have hscene : RenderSceneBatched S ctx registry = [] := by
    simp [RenderSceneBatched, h3, h4, drawItems]
  refine ⟨?_, ?_, ?_, ?_, hscene⟩
  · simp [RenderShadowMap, h1, h2, uploads]
  · simp [RenderShadowMap, h1, h2, drawCounts]
  · rw [hscene]; rfl
  · rw [hscene]; rfl

/-- Witness for C13: a store holding one entity with only a transform. -/
theorem C13_empty_scene_no_upload_no_draw_witness :
    uploads (RenderShadowMap (insertionShadowSort Int) sampleShadowEnv
      [⟨some 1, none, none, none⟩] sampleShadowMap).2 = [] ∧
    drawCounts (RenderShadowMap (insertionShadowSort Int) sampleShadowEnv
      [⟨some 1, none, none, none⟩] sampleShadowMap).2 = [] ∧
    uploads (RenderSceneBatched (insertionStdSort Int) sampleSceneCtx
      [⟨some 1, none, none, none⟩]) = [] ∧
    drawCounts (RenderSceneBatched (insertionStdSort Int) sampleSceneCtx
      [⟨some 1, none, none, none⟩]) = [] ∧
    RenderSceneBatched (insertionStdSort Int) sampleSceneCtx [⟨some 1, none, none, none⟩] = [] :=
  C13_empty_scene_no_upload_no_draw (insertionShadowSort Int) (insertionStdSort Int)
    sampleShadowEnv sampleSceneCtx sampleShadowMap [⟨some 1, none, none, none⟩]
    (by intro e he; simp at he; subst he; right; exact ⟨rfl, rfl⟩)

/-- The gather loops on a concrete store: a mesh entity, a model entity with two sub-meshes, and
an entity without material. -/
theorem gather_sample :
    gatherMeshItems ([⟨some 1, some 4, none, some 9⟩, ⟨some 2, none, some [5, 6], some 8⟩,
      ⟨some 3, some 7, none, none⟩] : List (Entity Int)) = [⟨9, 4, 1⟩] ∧
    gatherModelItems ([⟨some 1, some 4, none, some 9⟩, ⟨some 2, none, some [5, 6], some 8⟩,
      ⟨some 3, some 7, none, none⟩] : List (Entity Int)) = [⟨8, 5, 2⟩, ⟨8, 6, 2⟩] := by
  decide

/-- C14: the item list gathered by `RenderSceneBatched` is one item per entity with transform,
mesh and material, carrying its three components, followed by, for each entity with
transform, model and material, one item per sub-mesh of the model in order, each carrying the
material and the transform matrix of the entity; its length is the number of mesh entities plus
the sum of the sub-mesh counts of the model entities. -/
theorem C14_gathered_items {μ : Type} (registry : List (Entity μ)) :
    List.Forall₂
      (fun (it : Item μ) (e : Entity μ) =>
        e.transform = some it.model ∧ e.mesh = some it.mesh ∧ e.material = some it.mat)
      (gatherMeshItems registry) (registry.filter Entity.isMeshEntity) ∧
    (∃ groups : List (List (Item μ)),
      groups.flatten = gatherModelItems registry ∧
      List.Forall₂
        (fun (g : List (Item μ)) (e : Entity μ) =>
          e.model = some (g.map Item.mesh) ∧
          ∀ it ∈ g, e.material = some it.mat ∧ e.transform = some it.model)
        groups (registry.filter Entity.isModelEntity)) ∧
    (gatherMeshItems registry ++ gatherModelItems registry).length =
      (registry.filter Entity.isMeshEntity).length +
        ((registry.filter Entity.isModelEntity).map Entity.submeshCount).sum := by
  induction registry with
  | nil => exact ⟨List.Forall₂.nil, ⟨[], rfl, List.Forall₂.nil⟩, rfl⟩
  | cons e es ih =>
    obtain ⟨ih1, ⟨gs, hgs, ih2⟩, ih3⟩ := ih
    rw [List.length_append] at ih3 ⊢
    rcases e with ⟨t, me, mo, ma⟩
    refine ⟨?_, ?_, ?_⟩
    · cases t <;> cases me <;> cases ma <;>
        simp [gatherMeshItems, Entity.isMeshEntity, List.filter_cons] <;>
        exact ih1
    · cases t with
      | none =>
        refine ⟨gs, ?_, ?_⟩
        · simpa [gatherModelItems] using hgs
        · simpa [Entity.isModelEntity, List.filter_cons] using ih2
      | some tv =>
        cases mo with
        | none =>
          refine ⟨gs, ?_, ?_⟩
          · simpa [gatherModelItems] using hgs
          · simpa [Entity.isModelEntity, List.filter_cons] using ih2
        | some subs =>
          cases ma with
          | none =>
            refine ⟨gs, ?_, ?_⟩
            · simpa [gatherModelItems] using hgs
            · simpa [Entity.isModelEntity, List.filter_cons] using ih2
          | some mv =>
            refine ⟨subs.map (fun submesh => { mat := mv, mesh := submesh, model := tv }) :: gs,
              ?_, ?_⟩
            · simp [gatherModelItems, hgs]
            · simp only [Entity.isModelEntity, List.filter_cons, Option.isSome_some,
                Bool.and_self, if_true]
              refine List.Forall₂.cons ⟨?_, ?_⟩ ih2
              · simp [Function.comp_def]
              · intro it hit
                simp only [List.mem_map] at hit
                obtain ⟨s, _, rfl⟩ := hit
                exact ⟨rfl, rfl⟩
    · cases t <;> cases me <;> cases mo <;> cases ma <;>
        simp [gatherMeshItems, gatherModelItems, Entity.isMeshEntity, Entity.isModelEntity,
          Entity.submeshCount, List.filter_cons] <;> omega

/-! ## Claim C15: the shadow pass -/

/-! ## The loops of the shadow pass -/

theorem shadowLess_false_iff {μ : Type} (a b : ShadowItem μ) :
    shadowLess b a = false ↔ a.mesh ≤ b.mesh := by
  simp [shadowLess]

theorem collectShadowModels_fst {μ : Type} (mesh : Nat) (l : List (ShadowItem μ)) :
    (collectShadowModels mesh l).1 = (l.takeWhile (sameMesh mesh)).map ShadowItem.model := by
  induction l with
  | nil => rfl
  | cons it rest ih =>
    by_cases h : it.mesh = mesh
    · simp [collectShadowModels, sameMesh, h, List.takeWhile_cons, ih]
    · simp [collectShadowModels, sameMesh, h, List.takeWhile_cons]

theorem collectShadowModels_snd {μ : Type} (mesh : Nat) (l : List (ShadowItem μ)) :
    (collectShadowModels mesh l).2 = l.dropWhile (sameMesh mesh) := by
  induction l with
  | nil => rfl
  | cons it rest ih =>
    by_cases h : it.mesh = mesh
    · simp [collectShadowModels, sameMesh, h, List.dropWhile_cons, ih]
    · simp [collectShadowModels, sameMesh, h, List.dropWhile_cons]

theorem shadow_dropWhile_length {μ : Type} (it : ShadowItem μ) (rest : List (ShadowItem μ)) :
    ((it :: rest).dropWhile (sameMesh it.mesh)).length ≤ rest.length := by
  simp only [List.dropWhile_cons, sameMesh, decide_True, if_true]
  exact dropWhile_length_le _ _

theorem shadowLoopFuel_budget {μ : Type} (n : Nat) :
    ∀ (m : Nat) (l : List (ShadowItem μ)), l.length ≤ n → l.length ≤ m →
      shadowLoopFuel n l = shadowLoopFuel m l := by
  induction n with
  | zero =>
    intro m l hn _
    have hl : l = [] := List.length_eq_zero.mp (Nat.le_zero.mp hn)
    subst hl
    cases m <;> rfl
  | succ n ih =>
    intro m l hn hm
    cases l with
    | nil => cases m <;> rfl
    | cons it rest =>
      cases m with
      | zero => simp at hm
      | succ m =>
        have hlen := shadow_dropWhile_length it rest
        simp only [List.length_cons] at hn hm
        simp only [shadowLoopFuel, collectShadowModels_snd]
        rw [ih m _ (by omega) (by omega)]

theorem shadowLoop_nil {μ : Type} : shadowLoop ([] : List (ShadowItem μ)) = [] := rfl

/-- One iteration of the outer loop of the shadow pass. -/
theorem shadowLoop_cons {μ : Type} (it : ShadowItem μ) (rest : List (ShadowItem μ)) :
    shadowLoop (it :: rest) =
      { mesh := it.mesh,
        models := ((it :: rest).takeWhile (sameMesh it.mesh)).map ShadowItem.model }
        :: shadowLoop ((it :: rest).dropWhile (sameMesh it.mesh)) := by
  unfold shadowLoop
  simp only [List.length_cons, shadowLoopFuel, collectShadowModels_fst, collectShadowModels_snd]
  rw [shadowLoopFuel_budget rest.length _ _ (shadow_dropWhile_length it rest) (le_refl _)]

/-- What the scan of the shadow pass yields on a list sorted by mesh: the number of matrices
adds up, no mesh opens two batches, every batch holds exactly the matrices of the items of its
mesh, and every mesh of the list has its batch. -/
theorem shadowLoop_sorted_aux {μ : Type} (n : Nat) :
    ∀ l : List (ShadowItem μ), l.length ≤ n →
      l.Pairwise (fun a b => shadowLess b a = false) →
      ((shadowLoop l).map (fun b => b.models.length)).sum = l.length ∧
      ((shadowLoop l).map ShadowBatch.mesh).Nodup ∧
      (∀ b ∈ shadowLoop l, (∃ it ∈ l, it.mesh = b.mesh) ∧
        b.models = (l.filter (sameMesh b.mesh)).map ShadowItem.model) ∧
      (∀ it ∈ l, ∃ b ∈ shadowLoop l, b.mesh = it.mesh) := by
  induction n with
  | zero =>
    intro l hl _
    have : l = [] := List.length_eq_zero.mp (Nat.le_zero.mp hl)
    subst this
    simp [shadowLoop_nil]
  | succ n ih =>
    intro l hl hs
    cases l with
    | nil => simp [shadowLoop_nil]
    | cons it rest =>
      have hlen := shadow_dropWhile_length it rest
      simp only [List.length_cons] at hl
      have hsub : ((it :: rest).dropWhile (sameMesh it.mesh)).Sublist (it :: rest) :=
        List.dropWhile_sublist _
      obtain ⟨ih1, ih2, ih3, ih4⟩ := ih _ (by omega) (hs.sublist hsub)
      have hsplit := List.takeWhile_append_dropWhile (sameMesh it.mesh) (it :: rest)
      -- every remaining item has a larger mesh
      have hD : ∀ x ∈ (it :: rest).dropWhile (sameMesh it.mesh), it.mesh < x.mesh := by
        have hdrop : (it :: rest).dropWhile (sameMesh it.mesh)
            = rest.dropWhile (sameMesh it.mesh) := by
          simp [List.dropWhile_cons, sameMesh]
        rw [hdrop]
        intro x hx
        have hs' := hs.sublist hsub
        rw [hdrop] at hs'
        cases hr : rest.dropWhile (sameMesh it.mesh) with
        | nil => rw [hr] at hx; simp at hx
        | cons h t =>
          have hhead : sameMesh it.mesh h = false := by
            have := List.head_dropWhile_not (sameMesh it.mesh) rest (by rw [hr]; simp)
            simpa [hr] using this
          have hhrest : h ∈ rest := (List.dropWhile_sublist _).subset (by rw [hr]; simp)
          have h1 : shadowLess h it = false := (List.pairwise_cons.mp hs).1 h hhrest
          rw [shadowLess_false_iff] at h1
          simp only [sameMesh, decide_eq_false_iff_not] at hhead
          rw [hr] at hx hs'
          rcases List.mem_cons.mp hx with rfl | hxt
          · omega
          · have h2 : shadowLess x h = false := (List.pairwise_cons.mp hs').1 x hxt
            rw [shadowLess_false_iff] at h2
            omega
      have hT : ∀ x ∈ (it :: rest).takeWhile (sameMesh it.mesh), x.mesh = it.mesh := by
        intro x hx
        simpa [sameMesh] using List.mem_takeWhile_imp hx
      have hfT : ((it :: rest).takeWhile (sameMesh it.mesh)).filter (sameMesh it.mesh)
          = (it :: rest).takeWhile (sameMesh it.mesh) :=
        List.filter_eq_self.mpr (fun x hx => List.mem_takeWhile_imp hx)
      have hfD : ((it :: rest).dropWhile (sameMesh it.mesh)).filter (sameMesh it.mesh) = [] := by
        rw [List.filter_eq_nil_iff]
        intro x hx
        have := hD x hx
        simp [sameMesh]
        omega
      rw [shadowLoop_cons]
      refine ⟨?_, ?_, ?_, ?_⟩
      · simp only [List.map_cons, List.sum_cons, List.length_map, ih1]
        rw [← List.length_append, hsplit]
      · rw [List.map_cons, List.nodup_cons]
        refine ⟨?_, ih2⟩
        intro hmem
        obtain ⟨b, hb, hbm⟩ := List.mem_map.mp hmem
        obtain ⟨x, hx, hxm⟩ := (ih3 b hb).1
        have := hD x hx
        simp only at hbm
        omega
      · intro b hb
        rcases List.mem_cons.mp hb with rfl | hb
        · refine ⟨⟨it, List.mem_cons_self _ _, rfl⟩, ?_⟩
          simp only
          conv_rhs => rw [← hsplit, List.filter_append, hfT, hfD, List.append_nil]
        · obtain ⟨⟨x, hx, hxm⟩, hmodels⟩ := ih3 b hb
          refine ⟨⟨x, hsub.subset hx, hxm⟩, ?_⟩
          have hne : it.mesh < b.mesh := by rw [← hxm]; exact hD x hx
          have hfT' : ((it :: rest).takeWhile (sameMesh it.mesh)).filter (sameMesh b.mesh)
              = [] := by
            rw [List.filter_eq_nil_iff]
            intro y hy
            have := hT y hy
            simp [sameMesh]
            omega
          rw [hmodels]
          conv_rhs => rw [← hsplit, List.filter_append, hfT', List.nil_append]
      · intro x hx
        rw [← hsplit, List.mem_append] at hx
        rcases hx with hx | hx
        · exact ⟨_, List.mem_cons_self _ _, (hT x hx).symm⟩
        · obtain ⟨b, hb, hbm⟩ := ih4 x hx
          exact ⟨b, List.mem_cons_of_mem _ hb, hbm⟩

theorem shadowLoop_sorted {μ : Type} (l : List (ShadowItem μ))
    (hs : l.Pairwise (fun a b => shadowLess b a = false)) :
    ((shadowLoop l).map (fun b => b.models.length)).sum = l.length ∧
    ((shadowLoop l).map ShadowBatch.mesh).Nodup ∧
    (∀ b ∈ shadowLoop l, (∃ it ∈ l, it.mesh = b.mesh) ∧
      b.models = (l.filter (sameMesh b.mesh)).map ShadowItem.model) ∧
    (∀ it ∈ l, ∃ b ∈ shadowLoop l, b.mesh = it.mesh) :=
  shadowLoop_sorted_aux l.length l (le_refl _) hs

/-! ## Reading the trace of the shadow pass -/

theorem uploads_flatMap_drawShadowBatch {μ : Type} (meshes : Nat → Mesh)
    (bs : List (ShadowBatch μ)) (tail : List (GLCall μ)) :
    uploads (bs.flatMap (drawShadowBatch meshes) ++ tail) =
      bs.map (fun b => b.models.take b.models.length) ++ uploads tail := by
  induction bs with
  | nil => simp
  | cons b bs ih =>
    have h1 : ∀ t : List (GLCall μ),
        uploads (drawShadowBatch meshes b ++ t) = b.models.take b.models.length :: uploads t :=
      fun _ => rfl
    rw [List.flatMap_cons, List.append_assoc, h1, ih]
    rfl

theorem drawCounts_flatMap_drawShadowBatch {μ : Type} (meshes : Nat → Mesh)
    (bs : List (ShadowBatch μ)) (tail : List (GLCall μ)) :
    drawCounts (bs.flatMap (drawShadowBatch meshes) ++ tail) =
      bs.map (fun b => b.models.length) ++ drawCounts tail := by
  induction bs with
  | nil => simp
  | cons b bs ih =>
    have h1 : ∀ t : List (GLCall μ),
        drawCounts (drawShadowBatch meshes b ++ t) = b.models.length :: drawCounts t :=
      fun _ => rfl
    rw [List.flatMap_cons, List.append_assoc, h1, ih]
    rfl

theorem pairUploads_flatMap_drawShadowBatch {μ : Type} (meshes : Nat → Mesh)
    (bs : List (ShadowBatch μ)) (tail : List (GLCall μ))
    (htail : ∀ st : PairState μ, st.pending = none → pairUploads st tail = some []) :
    ∀ st : PairState μ, st.pending = none →
      pairUploads st (bs.flatMap (drawShadowBatch meshes) ++ tail) =
        some (bs.map (ShadowBatch.instanced meshes)) := by
  induction bs with
  | nil =>
    intro st hst
    simpa using htail st hst
  | cons b bs ih =>
    intro st hst
    have h1 : ∀ t : List (GLCall μ),
        pairUploads st (drawShadowBatch meshes b ++ t) =
          (pairUploads { boundVbo := 0, boundVao := 0, pending := none } t).map
            (fun ds => ShadowBatch.instanced meshes b :: ds) := by
      intro t
      simp only [drawShadowBatch, List.cons_append, List.nil_append, pairUploads, hst,
        ShadowBatch.instanced, List.take_length]
      rfl
    rw [List.flatMap_cons, List.append_assoc, h1, ih _ rfl]
    rfl

/-- The trace of `RenderShadowMap` when the item list is not empty. -/
theorem RenderShadowMap_trace_drawing {μ : Type} (S : StdSort (ShadowItem μ) shadowLess)
    (env : ShadowEnv μ) (registry : List (Entity μ)) (sm : ShadowMap μ)
    (h : shadowItems registry ≠ []) :
    uploads (RenderShadowMap S env registry sm).2 =
      (shadowLoop (S.sort (shadowItems registry))).map (fun b => b.models) ∧
    drawCounts (RenderShadowMap S env registry sm).2 =
      (shadowLoop (S.sort (shadowItems registry))).map (fun b => b.models.length) ∧
    pairUploads PairState.init (RenderShadowMap S env registry sm).2 =
      some ((shadowLoop (S.sort (shadowItems registry))).map
        (ShadowBatch.instanced env.meshes)) := by
  have hne : (gatherShadowMeshes registry ++ gatherShadowModels registry).isEmpty = false := by
    cases hl : gatherShadowMeshes registry ++ gatherShadowModels registry with
    | nil => exact absurd hl h
    | cons a l => rfl
  simp only [RenderShadowMap, hne, Bool.false_eq_true, if_false]
  refine ⟨?_, ?_, ?_⟩
  · change uploads ((shadowLoop (S.sort (shadowItems registry))).flatMap
      (drawShadowBatch env.meshes) ++ _) = _
    rw [uploads_flatMap_drawShadowBatch]
    simp [uploads]
  · change drawCounts ((shadowLoop (S.sort (shadowItems registry))).flatMap
      (drawShadowBatch env.meshes) ++ _) = _
    rw [drawCounts_flatMap_drawShadowBatch]
    simp [drawCounts]
  · change pairUploads PairState.init ((shadowLoop (S.sort (shadowItems registry))).flatMap
      (drawShadowBatch env.meshes) ++ _) = _
    exact pairUploads_flatMap_drawShadowBatch env.meshes _ _
      (fun st hst => by simp [pairUploads, hst]) PairState.init rfl

/-- Every list of shadow items is the gathered list of some scene store. -/
theorem shadowItems_realised {μ : Type} (items : List (ShadowItem μ)) :
    shadowItems (items.map (fun it =>
      ({ transform := some it.model, mesh := some it.mesh, model := none, material := none } :
        Entity μ))) = items := by
  have h1 : ∀ l : List (ShadowItem μ), gatherShadowMeshes (l.map (fun it =>
      ({ transform := some it.model, mesh := some it.mesh, model := none, material := none } :
        Entity μ))) = l := by
    intro l
    induction l with
    | nil => rfl
    | cons a l ih => simp [gatherShadowMeshes, ih]
  have h2 : ∀ l : List (ShadowItem μ), gatherShadowModels (l.map (fun it =>
      ({ transform := some it.model, mesh := some it.mesh, model := none, material := none } :
        Entity μ))) = [] := by
    intro l
    induction l with
    | nil => rfl
    | cons a l ih => simp [gatherShadowModels, ih]
  simp [shadowItems, h1, h2]

/-- The shadow pass on a concrete store: two entities sharing mesh 4 and a model with
sub-meshes 4 and 6 give two draws, of three instances and of one. -/
theorem RenderShadowMap_sample_counts :
    drawCounts (RenderShadowMap (insertionShadowSort Int) sampleShadowEnv
      [⟨some 1, some 4, none, none⟩, ⟨some 2, none, some [6, 4], none⟩,
       ⟨some 3, some 4, none, none⟩] sampleShadowMap).2 = [3, 1] ∧
    uploads (RenderShadowMap (insertionShadowSort Int) sampleShadowEnv
      [⟨some 1, some 4, none, none⟩, ⟨some 2, none, some [6, 4], none⟩,
       ⟨some 3, some 4, none, none⟩] sampleShadowMap).2 = [[1, 3, 2], [2]] := by
  decide

/-- C15: when the shadow item list is not empty, `RenderShadowMap` issues exactly one
instance-buffer upload and one instanced draw per distinct mesh of the list, each upload
consumed by its draw before the next upload; the draw for mesh `m` goes to the vertex array of
`m` with instance count the number of items whose mesh is `m`, after an upload of that many
matrices to the instance buffer of `m`; and the instance counts sum to the number of items. -/
theorem C15_shadow_one_draw_per_mesh {μ : Type} (S : StdSort (ShadowItem μ) shadowLess)
    (env : ShadowEnv μ) (registry : List (Entity μ)) (sm : ShadowMap μ)
    (h : shadowItems registry ≠ []) :
    (uploads (RenderShadowMap S env registry sm).2).length =
      ((shadowItems registry).map ShadowItem.mesh).dedup.length ∧
    (drawCounts (RenderShadowMap S env registry sm).2).length =
      ((shadowItems registry).map ShadowItem.mesh).dedup.length ∧
    (drawCounts (RenderShadowMap S env registry sm).2).sum = (shadowItems registry).length ∧
    ∃ (ms : List Nat) (draws : List (InstancedDraw μ)),
      ms.Nodup ∧ (∀ m, m ∈ ms ↔ ∃ it ∈ shadowItems registry, it.mesh = m) ∧
      pairUploads PairState.init (RenderShadowMap S env registry sm).2 = some draws ∧
      List.Forall₂
        (fun (d : InstancedDraw μ) (m : Nat) =>
          d.vbo = (env.meshes m).instanceVBO ∧ d.vao = (env.meshes m).VAO ∧
          d.indexCount = (env.meshes m).indexCount ∧
          d.instanceCount = ((shadowItems registry).filter (sameMesh m)).length ∧
          d.data.Perm (((shadowItems registry).filter (sameMesh m)).map ShadowItem.model))
        draws ms := by
  obtain ⟨hu, hd, hp⟩ := RenderShadowMap_trace_drawing S env registry sm h
  obtain ⟨h1, h2, h3, h4⟩ := shadowLoop_sorted _ (S.sorted (shadowItems registry))
  have hperm := S.perm (shadowItems registry)
  have hmem : ∀ m, m ∈ (shadowLoop (S.sort (shadowItems registry))).map ShadowBatch.mesh ↔
      ∃ it ∈ shadowItems registry, it.mesh = m := by
    intro m
    rw [List.mem_map]
    constructor
    · rintro ⟨b, hb, rfl⟩
      obtain ⟨it, hit, hm⟩ := (h3 b hb).1
      exact ⟨it, hperm.subset hit, hm⟩
    · rintro ⟨it, hit, rfl⟩
      obtain ⟨b, hb, hm⟩ := h4 it (hperm.symm.subset hit)
      exact ⟨b, hb, hm⟩
  have hlen : (shadowLoop (S.sort (shadowItems registry))).length =
      ((shadowItems registry).map ShadowItem.mesh).dedup.length := by
    have hp2 : ((shadowLoop (S.sort (shadowItems registry))).map ShadowBatch.mesh).Perm
        ((shadowItems registry).map ShadowItem.mesh).dedup := by
      rw [List.perm_ext_iff_of_nodup h2 (List.nodup_dedup _)]
      intro m
      rw [hmem, List.mem_dedup, List.mem_map]
    simpa using hp2.length_eq
  have hcount : ∀ b ∈ shadowLoop (S.sort (shadowItems registry)),
      b.models.length = ((shadowItems registry).filter (sameMesh b.mesh)).length := by
    intro b hb
    rw [(h3 b hb).2, List.length_map]
    exact (hperm.filter _).length_eq
  refine ⟨?_, ?_, ?_, (shadowLoop (S.sort (shadowItems registry))).map ShadowBatch.mesh, _,
    h2, hmem, hp, ?_⟩
  · rw [hu, List.length_map, hlen]
  · rw [hd, List.length_map, hlen]
  · rw [hd, h1, hperm.length_eq]
  · rw [List.forall₂_map_left_iff, List.forall₂_map_right_iff, List.forall₂_same]
    intro b hb
    refine ⟨rfl, rfl, rfl, hcount b hb, ?_⟩
    simp only [ShadowBatch.instanced]
    rw [(h3 b hb).2]
    exact (hperm.filter _).map _

/-- Witness for C15: a store with one shadow caster. -/
theorem C15_shadow_one_draw_per_mesh_witness :
    (drawCounts (RenderShadowMap (insertionShadowSort Int) sampleShadowEnv
      [⟨some 1, some 4, none, none⟩] sampleShadowMap).2).sum =
      (shadowItems ([⟨some 1, some 4, none, none⟩] : List (Entity Int))).length :=
  (C15_shadow_one_draw_per_mesh (insertionShadowSort Int) sampleShadowEnv
    [⟨some 1, some 4, none, none⟩] sampleShadowMap (by decide)).2.2.1

/-! ## Claim C17: the shadow-map viewer -/

/-- For every zoom of at least 1 (so for the slider values in [1, 5]) and every pan, the UV
rectangle of the shadow-map viewer stays inside the texture: both components of `uv_min` are at
least 0 and both components of `uv_max` at most 1. -/
theorem shadowViewerUV_inside_of_one_le {K : Type} [LinearOrderedField K] (shadow_zoom : K)
    (shadow_pan : K × K) (hz : 1 ≤ shadow_zoom) :
    0 ≤ (shadowViewerUV shadow_zoom shadow_pan).uv_min.1 ∧
    0 ≤ (shadowViewerUV shadow_zoom shadow_pan).uv_min.2 ∧
    (shadowViewerUV shadow_zoom shadow_pan).uv_max.1 ≤ 1 ∧
    (shadowViewerUV shadow_zoom shadow_pan).uv_max.2 ≤ 1 := by
  have hpos : (0 : K) < shadow_zoom := lt_of_lt_of_le one_pos hz
  have hr : (1 / 2) / shadow_zoom ≤ (1 : K) / 2 := by
    rw [div_le_iff₀ hpos]
    nlinarith
  have hle : (1 / 2) / shadow_zoom ≤ 1 - (1 / 2) / shadow_zoom := by linarith
  have hx := clamp_mem (1 / 2 + shadow_pan.1 * ((1 / 2) / shadow_zoom)) _ _ hle
  have hy := clamp_mem (1 / 2 + shadow_pan.2 * ((1 / 2) / shadow_zoom)) _ _ hle
  simp only [shadowViewerUV]
  refine ⟨?_, ?_, ?_, ?_⟩ <;> linarith [hx.1, hx.2, hy.1, hy.2]

/-- Below zoom 1 the clamp bounds cross, the centre lands on the upper bound, and the rectangle
is pinned to `uv_max = 1` with `uv_min = 1 - 1 / zoom < 0`. -/
theorem shadowViewerUV_zoomed_out {K : Type} [LinearOrderedField K] (shadow_zoom : K)
    (shadow_pan : K × K) (h0 : 0 < shadow_zoom) (h1 : shadow_zoom < 1) :
    (shadowViewerUV shadow_zoom shadow_pan).uv_max = (1, 1) ∧
    (shadowViewerUV shadow_zoom shadow_pan).uv_min.1 < 0 ∧
    (shadowViewerUV shadow_zoom shadow_pan).uv_min.2 < 0 := by
  have hr : (1 : K) / 2 < (1 / 2) / shadow_zoom := by
    rw [lt_div_iff₀ h0]
    nlinarith
  have hlt : 1 - (1 / 2) / shadow_zoom < (1 / 2) / shadow_zoom := by linarith
  have hc : ∀ x : K, clamp x ((1 / 2) / shadow_zoom) (1 - (1 / 2) / shadow_zoom)
      = 1 - (1 / 2) / shadow_zoom := by
    intro x
    unfold clamp
    exact min_eq_right (le_trans hlt.le (le_max_right _ _))
  simp only [shadowViewerUV, hc]
  refine ⟨?_, ?_, ?_⟩
  · ext <;> simp
  · linarith
  · linarith

/-- The code at the failing input of C17: zoom 1/2 lies in the slider range [0.1, 5] and pan
(0, 0) in [-1, 1]^2; the clamp bounds cross, the centre is clamped to 0, and the rectangle is
[-1, 1] x [-1, 1], so both components of `uv_min` are negative. -/
theorem C17_zoomed_out_rect_leaves_texture :
    (1 / 10 : ℚ) ≤ 1 / 2 ∧ (1 / 2 : ℚ) ≤ 5 ∧
    (shadowViewerUV (1 / 2 : ℚ) (0, 0)).uv_min = (-1, -1) ∧
    (shadowViewerUV (1 / 2 : ℚ) (0, 0)).uv_max = (1, 1) ∧
    ¬ (0 ≤ (shadowViewerUV (1 / 2 : ℚ) (0, 0)).uv_min.1) ∧
    ¬ (0 ≤ (shadowViewerUV (1 / 2 : ℚ) (0, 0)).uv_min.2) := by
  have hc : clamp ((1 : ℚ) / 2 + 0 * ((1 / 2) / (1 / 2))) ((1 / 2) / (1 / 2))
      (1 - (1 / 2) / (1 / 2)) = 0 := by
    unfold clamp
    norm_num
  refine ⟨by norm_num, by norm_num, ?_, ?_, ?_, ?_⟩ <;>
    simp only [shadowViewerUV, hc] <;> norm_num

/-! ## Claims C16 and C18 to C20: CubeBatch -/

theorem InitBuffers_no_draw {K : Type} (env : CubeEnv) (c : CubeBatch K) (n : Nat) :
    CubeCall.drawElements n ∉ (c.InitBuffers env).2 := by
  unfold CubeBatch.InitBuffers
  simp only
  split_ifs <;> simp

theorem lazyInit_no_draw {K : Type} (env : CubeEnv) (c : CubeBatch K) (n : Nat) :
    CubeCall.drawElements n ∉ (c.lazyInit env).2 := by
  unfold CubeBatch.lazyInit
  split_ifs
  · exact InitBuffers_no_draw env c n
  · simp

/-- The two outcomes of `Draw`: with all three guards passed, one `glDrawElements` of
`m_indices.size()` indices between two vertex-array binds; otherwise only the log line of the
handler. -/
theorem Draw_calls {K : Type} (env : CubeEnv) (c : CubeBatch K) :
    (((c.afterPrimitiveDraw env).lazyInit env).1.m_vao ≠ 0 ∧
      ((c.afterPrimitiveDraw env).lazyInit env).1.m_ebo ≠ 0 ∧
      ((c.afterPrimitiveDraw env).lazyInit env).1.m_indices ≠ [] ∧
      (c.Draw env).calls = CubeCall.primitiveDraw :: ((c.afterPrimitiveDraw env).lazyInit env).2 ++
        [ CubeCall.bindVertexArray ((c.afterPrimitiveDraw env).lazyInit env).1.m_vao,
          CubeCall.drawElements ((c.afterPrimitiveDraw env).lazyInit env).1.m_indices.length,
          CubeCall.bindVertexArray 0 ]) ∨
    (¬ (((c.afterPrimitiveDraw env).lazyInit env).1.m_vao ≠ 0 ∧
      ((c.afterPrimitiveDraw env).lazyInit env).1.m_ebo ≠ 0 ∧
      ((c.afterPrimitiveDraw env).lazyInit env).1.m_indices ≠ []) ∧
      (c.Draw env).calls = CubeCall.primitiveDraw :: ((c.afterPrimitiveDraw env).lazyInit env).2 ++
        [CubeCall.cerr]) := by
  unfold CubeBatch.Draw CubeBatch.drawTry
  simp only
  by_cases h1 : ((c.afterPrimitiveDraw env).lazyInit env).1.m_vao = 0
  · right; simp [h1]
  · by_cases h2 : ((c.afterPrimitiveDraw env).lazyInit env).1.m_ebo = 0
    · right; simp [h1, h2]
    · by_cases h3 : ((c.afterPrimitiveDraw env).lazyInit env).1.m_indices = []
      · right; simp [h1, h2, h3]
      · left
        have h3' : ((c.afterPrimitiveDraw env).lazyInit env).1.m_indices.isEmpty = false := by
          cases hl : ((c.afterPrimitiveDraw env).lazyInit env).1.m_indices with
          | nil => exact absurd hl h3
          | cons a l => rfl
        simp [h1, h2, h3, h3']

theorem Draw_batch {K : Type} (env : CubeEnv) (c : CubeBatch K) :
    (c.Draw env).batch = ((c.afterPrimitiveDraw env).lazyInit env).1 := by
  unfold CubeBatch.Draw CubeBatch.drawTry
  simp only
  split_ifs <;> rfl

/-- C16: `Draw` submits its `glDrawElements` exactly when, after the lazy buffer
initialisation, the vertex-array handle is non-zero, the element-buffer handle is non-zero and
the index list is not empty; otherwise the trace holds no draw call; and in every case no
exception leaves `Draw`. -/
theorem C16_draw_guards {K : Type} (env : CubeEnv) (c : CubeBatch K) :
    ((∃ n, CubeCall.drawElements n ∈ (c.Draw env).calls) ↔
      (((c.afterPrimitiveDraw env).lazyInit env).1.m_vao ≠ 0 ∧
       ((c.afterPrimitiveDraw env).lazyInit env).1.m_ebo ≠ 0 ∧
       ((c.afterPrimitiveDraw env).lazyInit env).1.m_indices ≠ [])) ∧
    (c.Draw env).escaped = none := by
  constructor
  · rcases Draw_calls env c with ⟨h1, h2, h3, hc⟩ | ⟨hn, hc⟩
    · constructor
      · intro _; exact ⟨h1, h2, h3⟩
      · intro _
        exact ⟨((c.afterPrimitiveDraw env).lazyInit env).1.m_indices.length, by rw [hc]; simp⟩
    · constructor
      · rintro ⟨n, hn'⟩
        rw [hc] at hn'
        simp at hn'
        exact absurd hn' (lazyInit_no_draw env _ n)
      · intro h; exact absurd h hn
  · unfold CubeBatch.Draw
    split <;> rfl

/-- Drawing a fresh batch holding one cube issues one draw of 36 indices; drawing an empty one
issues none. -/
theorem Draw_sample :
    CubeCall.drawElements 36 ∈
      (((CubeBatch.new 0 0 0 : CubeBatch ℚ).AddCube roundFloat32 ⟨0, 0, 0⟩ 1 ⟨1, 1, 1⟩).Draw sampleCubeEnv).calls ∧
    ((CubeBatch.new 0 0 0 : CubeBatch ℚ).Draw sampleCubeEnv).calls =
      [ CubeCall.primitiveDraw, CubeCall.primitiveInitBuffers, CubeCall.bindVertexArray 1,
        CubeCall.genBuffers, CubeCall.bindArrayBuffer 2, CubeCall.bufferDataVertices [],
        CubeCall.vertexAttribPointer 0, CubeCall.enableVertexAttribArray 0,
        CubeCall.vertexAttribPointer 1, CubeCall.enableVertexAttribArray 1,
        CubeCall.vertexAttribPointer 2, CubeCall.enableVertexAttribArray 2,
        CubeCall.vertexAttribPointer 3, CubeCall.enableVertexAttribArray 3,
        CubeCall.cerr, CubeCall.cerr ] := by
  constructor
  · decide
  · rfl

/-! ## CubeBatch::AddCube -/

theorem cubeNewVertices_length {K : Type} [Field K] (fl : K → K) (position : Vec3 K) (size : K)
    (color : Vec3 K) : (cubeNewVertices fl position size color).length = 36 := rfl

theorem cubeNewIndices_eq (vertex_offset : Nat) :
    cubeNewIndices vertex_offset =
      (List.range 36).map (fun k => (vertex_offset + k) % 2 ^ 32) := by
  have h1 : (List.range cubeIndices.length).filter (fun i => i % 6 = 0)
      = [0, 6, 12, 18, 24, 30] := by decide
  have h2 : List.range 36 = [0, 1, 2, 3, 4, 5, 6, 7, 8, 9, 10, 11, 12, 13, 14, 15, 16, 17, 18,
      19, 20, 21, 22, 23, 24, 25, 26, 27, 28, 29, 30, 31, 32, 33, 34, 35] := by decide
  unfold cubeNewIndices
  rw [h1, h2]
  simp [Nat.add_assoc]

/-- Every lookup of the vertex loop of `AddCube` is within its table. -/
theorem addCube_lookups_in_bounds (face i : Nat) (hf : face < 6) (hi : i < 6) :
    face * 6 + i < cubeIndices.length ∧ cubeIndices.getD (face * 6 + i) 0 < 8 := by
  interval_cases face <;> interval_cases i <;> decide

theorem AddCube_vertices_length {K : Type} [Field K] (fl : K → K) (c : CubeBatch K) (position : Vec3 K)
    (size : K) (color : Vec3 K) :
    (c.AddCube fl position size color).m_vertices.length = c.m_vertices.length + 36 := by
  simp [CubeBatch.AddCube, cubeNewVertices_length]

/-- The index list stays the list of the positions below the vertex count, each reduced
modulo `2 ^ 32`. -/
theorem AddCube_indices {K : Type} [Field K] (fl : K → K) (c : CubeBatch K) (position : Vec3 K) (size : K)
    (color : Vec3 K)
    (h : c.m_indices = (List.range c.m_vertices.length).map (fun k => k % 2 ^ 32)) :
    (c.AddCube fl position size color).m_indices =
      (List.range (c.AddCube fl position size color).m_vertices.length).map
        (fun k => k % 2 ^ 32) := by
  rw [AddCube_vertices_length, List.range_add, List.map_append, ← h]
  simp only [CubeBatch.AddCube, cubeNewIndices_eq, List.map_map]
  congr 1
  apply List.map_congr_left
  intro k _
  simp [Nat.mod_add_mod]

theorem addCubes_spec {K : Type} [Field K] (fl : K → K) (cubes : List (Cube K)) :
    ∀ c : CubeBatch K,
      c.m_indices = (List.range c.m_vertices.length).map (fun k => k % 2 ^ 32) →
      (c.addCubes fl cubes).m_vertices.length = c.m_vertices.length + 36 * cubes.length ∧
      (c.addCubes fl cubes).m_indices =
        (List.range (c.addCubes fl cubes).m_vertices.length).map (fun k => k % 2 ^ 32) := by
  induction cubes with
  | nil => intro c h; exact ⟨by simp [CubeBatch.addCubes], h⟩
  | cons q qs ih =>
    intro c h
    have h1 := ih (c.AddCube fl q.position q.size q.color) (AddCube_indices fl c _ _ _ h)
    rw [AddCube_vertices_length] at h1
    refine ⟨?_, h1.2⟩
    have : (c.addCubes fl (q :: qs)) = (c.AddCube fl q.position q.size q.color).addCubes fl qs := rfl
    rw [this, h1.1, List.length_cons]
    ring

/-- From an empty batch: after `n` calls the vertex list has length `36 n` and the index list is
`0, 1, ..., 36 n - 1` with every value reduced modulo `2 ^ 32`. -/
theorem addCubes_from_new {K : Type} [Field K] (fl : K → K) (vao vbo ebo : Nat) (cubes : List (Cube K)) :
    ((CubeBatch.new vao vbo ebo : CubeBatch K).addCubes fl cubes).m_vertices.length
      = 36 * cubes.length ∧
    ((CubeBatch.new vao vbo ebo : CubeBatch K).addCubes fl cubes).m_indices
      = (List.range (36 * cubes.length)).map (fun k => k % 2 ^ 32) := by
  have h := addCubes_spec fl cubes (CubeBatch.new vao vbo ebo : CubeBatch K) rfl
  have h0 : (CubeBatch.new vao vbo ebo : CubeBatch K).m_vertices.length = 0 := rfl
  rw [h0, Nat.zero_add] at h
  refine ⟨h.1, ?_⟩
  rw [h.2, h.1]

/-- C20, as the code behaves: starting from an empty batch, after `n` calls of `AddCube` the
vertex list and the index list both have length `36 n`, the `k`-th index is `k` reduced modulo
`2 ^ 32` (the indices are `unsigned int`), so it equals `k` whenever `36 n <= 2 ^ 32`, every
index is less than the vertex count, and every table lookup inside `AddCube` is in bounds. -/
theorem C20_addCube_counts_and_indices {K : Type} [Field K] (fl : K → K) (vao vbo ebo : Nat)
    (cubes : List (Cube K)) :
    ((CubeBatch.new vao vbo ebo : CubeBatch K).addCubes fl cubes).m_vertices.length
      = 36 * cubes.length ∧
    ((CubeBatch.new vao vbo ebo : CubeBatch K).addCubes fl cubes).m_indices.length
      = 36 * cubes.length ∧
    (∀ k, k < 36 * cubes.length →
      ((CubeBatch.new vao vbo ebo : CubeBatch K).addCubes fl cubes).m_indices[k]?
        = some (k % 2 ^ 32)) ∧
    (36 * cubes.length ≤ 2 ^ 32 → ∀ k, k < 36 * cubes.length →
      ((CubeBatch.new vao vbo ebo : CubeBatch K).addCubes fl cubes).m_indices[k]? = some k) ∧
    (∀ i ∈ ((CubeBatch.new vao vbo ebo : CubeBatch K).addCubes fl cubes).m_indices,
      i < ((CubeBatch.new vao vbo ebo : CubeBatch K).addCubes fl cubes).m_vertices.length) ∧
    (∀ face i, face < 6 → i < 6 →
      face * 6 + i < cubeIndices.length ∧ cubeIndices.getD (face * 6 + i) 0 < 8) := by
  obtain ⟨hv, hi⟩ := addCubes_from_new fl vao vbo ebo cubes
  have hk : ∀ k, k < 36 * cubes.length →
      ((CubeBatch.new vao vbo ebo : CubeBatch K).addCubes fl cubes).m_indices[k]?
        = some (k % 2 ^ 32) := by
    intro k hk
    rw [hi]
    simp [List.getElem?_map, List.getElem?_range hk]
  refine ⟨hv, by rw [hi]; simp, hk, ?_, ?_, fun f i hf hi' => addCube_lookups_in_bounds f i hf hi'⟩
  · intro hle k hlt
    rw [hk k hlt, Nat.mod_eq_of_lt (by omega)]
  · intro i him
    rw [hi] at him
    rw [hv]
    obtain ⟨k, hkr, rfl⟩ := List.mem_map.mp him
    have := List.mem_range.mp hkr
    exact lt_of_le_of_lt (Nat.mod_le _ _) this

/-- Witness for C20: two cubes. -/
theorem C20_addCube_counts_and_indices_witness :
    ((CubeBatch.new 0 0 0 : CubeBatch ℚ).addCubes roundFloat32 [sampleCube, sampleCube]).m_indices[71]?
      = some 71 :=
  (C20_addCube_counts_and_indices roundFloat32 0 0 0 [sampleCube, sampleCube]).2.2.2.1 (by decide) 71
    (by decide)

/-- C20 as stated fails for large `n`: after 119304648 calls the list holds 4294967328 indices
and the one at position `2 ^ 32` is 0, the `unsigned int` sum having wrapped. -/
theorem C20_counterexample_index_wraps :
    ((CubeBatch.new 0 0 0 : CubeBatch ℚ).addCubes roundFloat32
      (List.replicate 119304648 sampleCube)).m_indices.length = 4294967328 ∧
    ((CubeBatch.new 0 0 0 : CubeBatch ℚ).addCubes roundFloat32
      (List.replicate 119304648 sampleCube)).m_indices[4294967296]? = some 0 ∧
    ((CubeBatch.new 0 0 0 : CubeBatch ℚ).addCubes roundFloat32
      (List.replicate 119304648 sampleCube)).m_indices[4294967296]? ≠ some 4294967296 := by
  obtain ⟨_, hi⟩ := @addCubes_from_new ℚ _ roundFloat32 0 0 0 (List.replicate 119304648 sampleCube)
  rw [hi, List.length_replicate]
  have hlt : 4294967296 < 36 * 119304648 := by norm_num
  refine ⟨by simp, ?_, ?_⟩
  · simp [List.getElem?_map, List.getElem?_range hlt]
  · simp [List.getElem?_map, List.getElem?_range hlt]

/-! ## Rounding to `float` -/

theorem ulpFloat32_eq (x : ℚ) (e : ℤ) (he : -126 ≤ e) (h1 : (2 : ℚ) ^ e ≤ |x|)
    (h2 : |x| < (2 : ℚ) ^ (e + 1)) : ulpFloat32 x = 2 ^ (e - 23) := by
  have hpos : 0 < |x| := lt_of_lt_of_le (by positivity) h1
  have hb : 1 < 2 := by norm_num
  have hlog : Int.log 2 |x| = e := by
    apply le_antisymm
    · have := (@Int.lt_zpow_iff_log_lt ℚ _ _ 2 hb (e + 1) |x| hpos).mp (by exact_mod_cast h2)
      omega
    · exact (@Int.zpow_le_iff_le_log ℚ _ _ 2 hb e |x| hpos).mp (by exact_mod_cast h1)
  unfold ulpFloat32
  rw [hlog, max_eq_left he]

theorem roundHalfEven_intCast (m : ℤ) : roundHalfEven (m : ℚ) = m := by
  unfold roundHalfEven
  simp

/-- A multiple of the spacing of its binade is a `float`: rounding leaves it as it is. -/
theorem roundFloat32_of_representable (x : ℚ) (e m : ℤ) (he : -126 ≤ e)
    (h1 : (2 : ℚ) ^ e ≤ |x|) (h2 : |x| < (2 : ℚ) ^ (e + 1))
    (hm : x = 2 ^ (e - 23) * (m : ℚ)) : roundFloat32 x = x := by
  have hq : (0 : ℚ) < 2 ^ (e - 23) := by positivity
  unfold roundFloat32
  rw [ulpFloat32_eq x e he h1 h2]
  have hdiv : x / 2 ^ (e - 23) = (m : ℚ) := by
    rw [hm]; field_simp
  rw [hdiv, roundHalfEven_intCast, ← hm]

theorem roundFloat32_half : roundFloat32 (1 / 2) = 1 / 2 :=
  roundFloat32_of_representable (1 / 2) (-1) 8388608 (by norm_num)
    (by norm_num [abs_of_pos]) (by norm_num [abs_of_pos]) (by norm_num [zpow_neg])

theorem roundFloat32_neg_half : roundFloat32 (-(1 / 2)) = -(1 / 2) :=
  roundFloat32_of_representable (-(1 / 2)) (-1) (-8388608) (by norm_num)
    (by norm_num [abs_of_pos]) (by norm_num [abs_of_pos]) (by norm_num [zpow_neg])

theorem roundFloat32_one : roundFloat32 1 = 1 :=
  roundFloat32_of_representable 1 0 8388608 (by norm_num)
    (by norm_num) (by norm_num) (by norm_num [zpow_neg])

theorem roundFloat32_neg_one : roundFloat32 (-1) = -1 :=
  roundFloat32_of_representable (-1) 0 (-8388608) (by norm_num)
    (by norm_num) (by norm_num) (by norm_num [zpow_neg])

/-- Around `10 ^ 8` the `float` values are 8 apart, so adding a half is lost in rounding. -/
theorem roundFloat32_big_plus_half : roundFloat32 (1 / 2 + 100000000) = 100000000 := by
  have hu := ulpFloat32_eq (1 / 2 + 100000000) 26 (by norm_num) (by norm_num [abs_of_pos])
    (by norm_num [abs_of_pos])
  unfold roundFloat32
  rw [hu]
  have hf : ⌊((1 : ℚ) / 2 + 100000000) / 2 ^ ((26 : ℤ) - 23)⌋ = 12500000 := by
    rw [Int.floor_eq_iff]; norm_num
  unfold roundHalfEven
  rw [hf]
  norm_num

/-! ## Cube faces -/

/-- The vertex pushed for corner `i` of face `face`, at position `face * 6 + i` of the 36. -/
theorem cubeNewVertices_get {K : Type} [Field K] (fl : K → K) (position : Vec3 K) (size : K)
    (color : Vec3 K) (face i : Nat) (hf : face < 6) (hi : i < 6) :
    (cubeNewVertices fl position size color)[face * 6 + i]? =
      some { position :=
               Vec3.addFloat fl
                 ((cubeVertices (fl (size / 2))).getD (cubeIndices.getD (face * 6 + i) 0)
                   ⟨0, 0, 0⟩) position,
             color := color,
             normal := faceNormals.getD face ⟨0, 0, 0⟩,
             tangent := ⟨1, 0, 0⟩ } := by
  interval_cases face <;> interval_cases i <;> rfl

/-- The 12 triangles of one `AddCube`.  The three vertices of triangle `t` always carry the
normal of face `t / 2`.  When nothing is rounded they lie on the face plane, the geometric
normal is `size^2` times the stored one, and its component along the direction from the cube
centre to the triangle is `size^3 / 2`, of the sign of `size`. -/
theorem cube_triangles {K : Type} [LinearOrderedField K] (fl : K → K)
    (position : Vec3 K) (size : K) (color : Vec3 K) (t : Nat) (ht : t < 12) :
    ∃ v0 v1 v2 n,
      (cubeNewVertices fl position size color)[3 * t]? = some v0 ∧
      (cubeNewVertices fl position size color)[3 * t + 1]? = some v1 ∧
      (cubeNewVertices fl position size color)[3 * t + 2]? = some v2 ∧
      (@faceNormals K _)[t / 2]? = some n ∧
      v0.normal = n ∧ v1.normal = n ∧ v2.normal = n ∧
      (CubeExact fl position size →
        Vec3.dot (Vec3.sub v0.position position) n = size / 2 ∧
        Vec3.dot (Vec3.sub v1.position position) n = size / 2 ∧
        Vec3.dot (Vec3.sub v2.position position) n = size / 2 ∧
        Vec3.cross (Vec3.sub v1.position v0.position) (Vec3.sub v2.position v0.position)
          = Vec3.scale (size * size) n ∧
        Vec3.dot
          (Vec3.cross (Vec3.sub v1.position v0.position) (Vec3.sub v2.position v0.position))
          (Vec3.sub v0.position position) = size * size * (size / 2)) := by
  obtain ⟨face, half, rfl, hf, hh2⟩ : ∃ face half, t = 2 * face + half ∧ face < 6 ∧ half < 2 :=
    ⟨t / 2, t % 2, by omega, by omega, by omega⟩
  have h0 := cubeNewVertices_get fl position size color face (3 * half) hf (by omega)
  have h1 := cubeNewVertices_get fl position size color face (3 * half + 1) hf (by omega)
  have h2 := cubeNewVertices_get fl position size color face (3 * half + 2) hf (by omega)
  interval_cases face <;> interval_cases half <;>
    refine ⟨_, _, _, _, h0, h1, h2, rfl, rfl, rfl, rfl, ?_⟩ <;>
    intro hx <;>
    obtain ⟨hh, hxp, hxn, hyp, hyn, hzp, hzn⟩ := hx <;>
    refine ⟨?_, ?_, ?_, ?_, ?_⟩ <;>
    simp only [cubeVertices, cubeIndices, faceNormals, Vec3.dot, Vec3.sub, Vec3.addFloat,
      Vec3.cross, Vec3.scale, Nat.reduceMul, Nat.reduceAdd, Nat.reduceDiv, Nat.reduceMod,
      List.getD_eq_getElem?_getD, List.getElem?_cons_zero, List.getElem?_cons_succ,
      Option.getD_some, Vec3.mk.injEq, List.getElem_cons_zero, List.getElem_cons_succ,
      hh, hxp, hxn, hyp, hyn, hzp, hzn] <;>
    first
      | (refine ⟨?_, ?_, ?_⟩ <;> ring1)
      | ring1

/-- The first vertex pushed for the right face, whatever the rounding: its stored `x` is the
rounded sum of the rounded half size and `position.x`, and its offset from the cube centre
along its normal `(1, 0, 0)` is that value minus `position.x`. -/
theorem right_face_first_vertex {K : Type} [LinearOrderedField K] (fl : K → K)
    (position : Vec3 K) (size : K) (color : Vec3 K) (a b : K) (ha : fl (size / 2) = a)
    (hb : fl (a + position.x) = b) :
    ∃ v, (cubeNewVertices fl position size color)[18]? = some v ∧
      v.normal = ⟨1, 0, 0⟩ ∧ v.position.x = b ∧
      Vec3.dot (Vec3.sub v.position position) v.normal = b - position.x := by
  refine ⟨_, cubeNewVertices_get fl position size color 3 0 (by decide) (by decide),
    rfl, ?_, ?_⟩
  · simp only [cubeVertices, cubeIndices, Vec3.addFloat, Nat.reduceMul, Nat.reduceAdd,
      List.getD_eq_getElem?_getD, List.getElem?_cons_zero, List.getElem?_cons_succ,
      Option.getD_some, ha, hb]
  · simp only [cubeVertices, cubeIndices, faceNormals, Vec3.dot, Vec3.sub, Vec3.addFloat,
      Nat.reduceMul, Nat.reduceAdd, List.getD_eq_getElem?_getD, List.getElem?_cons_zero,
      List.getElem?_cons_succ, Option.getD_some, ha, hb]
    ring1

theorem sampleCube_exact : CubeExact roundFloat32 sampleCube.position sampleCube.size := by
  simp only [CubeExact, sampleCube, add_zero, roundFloat32_half, roundFloat32_neg_half,
    and_self]

/-- C19, as the code behaves: `AddCube` appends 36 vertices forming 12 triangles, and the three
vertices of triangle `t` always carry the normal `n` of face `t / 2`.  For `size > 0`, when
`size / 2` and the corner sums are computed without rounding, each vertex lies on the plane
`dot(v - position, n) = size / 2`, the geometric normal `cross(v1 - v0, v2 - v0)` is
`size^2 * n`, and it points away from the cube centre, so the triangle is wound
counter-clockwise seen from outside. -/
theorem C19_cube_faces_exact_positive_size {K : Type} [LinearOrderedField K] (fl : K → K)
    (c : CubeBatch K) (position : Vec3 K) (size : K) (color : Vec3 K) :
    (c.AddCube fl position size color).m_vertices =
      c.m_vertices ++ cubeNewVertices fl position size color ∧
    (cubeNewVertices fl position size color).length = 3 * 12 ∧
    ∀ t, t < 12 → ∃ v0 v1 v2 n,
      (cubeNewVertices fl position size color)[3 * t]? = some v0 ∧
      (cubeNewVertices fl position size color)[3 * t + 1]? = some v1 ∧
      (cubeNewVertices fl position size color)[3 * t + 2]? = some v2 ∧
      (@faceNormals K _)[t / 2]? = some n ∧
      v0.normal = n ∧ v1.normal = n ∧ v2.normal = n ∧
      (0 < size → CubeExact fl position size →
        Vec3.dot (Vec3.sub v0.position position) n = size / 2 ∧
        Vec3.dot (Vec3.sub v1.position position) n = size / 2 ∧
        Vec3.dot (Vec3.sub v2.position position) n = size / 2 ∧
        Vec3.cross (Vec3.sub v1.position v0.position) (Vec3.sub v2.position v0.position)
          = Vec3.scale (size * size) n ∧
        0 < Vec3.dot
          (Vec3.cross (Vec3.sub v1.position v0.position) (Vec3.sub v2.position v0.position))
          (Vec3.sub v0.position position)) := by
  refine ⟨rfl, rfl, ?_⟩
  intro t ht
  obtain ⟨v0, v1, v2, n, g0, g1, g2, gn, n0, n1, n2, hex⟩ :=
    cube_triangles fl position size color t ht
  refine ⟨v0, v1, v2, n, g0, g1, g2, gn, n0, n1, n2, ?_⟩
  intro hs hx
  obtain ⟨p0, p1, p2, hc, hd⟩ := hex hx
  refine ⟨p0, p1, p2, hc, ?_⟩
  rw [hd]
  positivity

/-- Witness for C19: the first triangle of a unit cube at the origin, in `float` arithmetic. -/
theorem C19_cube_faces_exact_positive_size_witness :
    ∃ v0 v1 v2 n,
      (cubeNewVertices roundFloat32 sampleCube.position sampleCube.size sampleCube.color)[3 * 0]?
        = some v0 ∧
      (cubeNewVertices roundFloat32 sampleCube.position sampleCube.size
        sampleCube.color)[3 * 0 + 1]? = some v1 ∧
      (cubeNewVertices roundFloat32 sampleCube.position sampleCube.size
        sampleCube.color)[3 * 0 + 2]? = some v2 ∧
      (@faceNormals ℚ _)[0 / 2]? = some n ∧
      v0.normal = n ∧ v1.normal = n ∧ v2.normal = n ∧
      Vec3.dot (Vec3.sub v0.position sampleCube.position) n = sampleCube.size / 2 ∧
      Vec3.dot (Vec3.sub v1.position sampleCube.position) n = sampleCube.size / 2 ∧
      Vec3.dot (Vec3.sub v2.position sampleCube.position) n = sampleCube.size / 2 ∧
      Vec3.cross (Vec3.sub v1.position v0.position) (Vec3.sub v2.position v0.position)
        = Vec3.scale (sampleCube.size * sampleCube.size) n ∧
      0 < Vec3.dot
        (Vec3.cross (Vec3.sub v1.position v0.position) (Vec3.sub v2.position v0.position))
        (Vec3.sub v0.position sampleCube.position) := by
  obtain ⟨v0, v1, v2, n, g0, g1, g2, gn, n0, n1, n2, h⟩ :=
    (C19_cube_faces_exact_positive_size roundFloat32 (CubeBatch.new 0 0 0) sampleCube.position
      sampleCube.size sampleCube.color).2.2 0 (by decide)
  exact ⟨v0, v1, v2, n, g0, g1, g2, gn, n0, n1, n2,
    h (by norm_num [sampleCube]) sampleCube_exact⟩

/-- C19 as stated fails in two ways.  With `size = -2` at the origin nothing is rounded and the
equalities hold, but the geometric normal of the first triangle points towards the cube centre:
the face is wound clockwise seen from outside.  With `size = 1` at position `(10^8, 0, 0)` the
sum `0.5 + 10^8` rounds to `10^8`, so the first vertex of the right face, tagged with normal
`(1, 0, 0)`, has `dot(v - position, n) = 0`, not `size / 2`. -/
theorem C19_counterexample_negative_size_and_rounding :
    (∃ v0 v1 v2,
      (cubeNewVertices roundFloat32 ⟨0, 0, 0⟩ (-2) ⟨1, 1, 1⟩)[3 * 0]? = some v0 ∧
      (cubeNewVertices roundFloat32 ⟨0, 0, 0⟩ (-2) ⟨1, 1, 1⟩)[3 * 0 + 1]? = some v1 ∧
      (cubeNewVertices roundFloat32 ⟨0, 0, 0⟩ (-2) ⟨1, 1, 1⟩)[3 * 0 + 2]? = some v2 ∧
      Vec3.dot
        (Vec3.cross (Vec3.sub v1.position v0.position) (Vec3.sub v2.position v0.position))
        (Vec3.sub v0.position ⟨0, 0, 0⟩) < 0) ∧
    (∃ v,
      (cubeNewVertices roundFloat32 ⟨100000000, 0, 0⟩ 1 ⟨1, 1, 1⟩)[18]? = some v ∧
      v.normal = ⟨1, 0, 0⟩ ∧
      v.position.x = 100000000 ∧
      Vec3.dot (Vec3.sub v.position ⟨100000000, 0, 0⟩) v.normal = 0 ∧
      Vec3.dot (Vec3.sub v.position ⟨100000000, 0, 0⟩) v.normal ≠ (1 : ℚ) / 2) := by
  constructor
  · have hexact : CubeExact roundFloat32 (⟨0, 0, 0⟩ : Vec3 ℚ) (-2) := by
      have h2 : (-2 : ℚ) / 2 = -1 := by norm_num
      simp only [CubeExact, h2, add_zero, neg_neg, roundFloat32_one, roundFloat32_neg_one,
        and_self]
    obtain ⟨v0, v1, v2, n, g0, g1, g2, _, _, _, _, hex⟩ :=
      cube_triangles roundFloat32 (⟨0, 0, 0⟩ : Vec3 ℚ) (-2) ⟨1, 1, 1⟩ 0 (by decide)
    obtain ⟨_, _, _, _, hd⟩ := hex hexact
    exact ⟨v0, v1, v2, g0, g1, g2, by rw [hd]; norm_num⟩
  · obtain ⟨v, g, hn, hx, hd⟩ := right_face_first_vertex roundFloat32
      (⟨100000000, 0, 0⟩ : Vec3 ℚ) 1 ⟨1, 1, 1⟩ (1 / 2) 100000000 roundFloat32_half
      roundFloat32_big_plus_half
    exact ⟨v, g, hn, hx, by rw [hd]; norm_num, by rw [hd]; norm_num⟩

/-! ## Draws against the uploaded buffers -/

theorem gpu_run_append {K : Type} (g : GpuBuffers K) (t1 t2 : List (CubeCall K)) :
    g.run (t1 ++ t2) = (g.run t1).run t2 := by
  simp [GpuBuffers.run, List.foldl_append]

theorem drawsInSync_append {K : Type} (t1 t2 : List (CubeCall K)) :
    ∀ g : GpuBuffers K,
      drawsInSync g (t1 ++ t2) = (drawsInSync g t1 && drawsInSync (g.run t1) t2) := by
  induction t1 with
  | nil => intro g; simp [drawsInSync, GpuBuffers.run]
  | cons call t ih =>
    intro g
    cases call <;>
      simp [drawsInSync, GpuBuffers.run, GpuBuffers.step, ih, Bool.and_assoc]

theorem drawsInSync_of_no_draw {K : Type} (t : List (CubeCall K)) :
    ∀ g : GpuBuffers K, (∀ n, CubeCall.drawElements n ∉ t) → drawsInSync g t = true := by
  induction t with
  | nil => intro g _; rfl
  | cons call t ih =>
    intro g h
    have ht : ∀ n, CubeCall.drawElements n ∉ t := fun n hn => h n (List.mem_cons_of_mem _ hn)
    cases call <;> first
      | exact absurd (List.mem_cons_self _ _) (h _)
      | (simp only [drawsInSync]; exact ih _ ht)

theorem lazyInit_fields {K : Type} (env : CubeEnv) (c : CubeBatch K) :
    (c.lazyInit env).1.m_indices = c.m_indices ∧
    (c.lazyInit env).1.m_vertices = c.m_vertices ∧
    ((c.lazyInit env).1.m_cube_buffers_initialized = false →
      c.m_cube_buffers_initialized = false → False) := by
  unfold CubeBatch.lazyInit CubeBatch.InitBuffers
  cases hflag : c.m_cube_buffers_initialized <;> simp [hflag]; split_ifs <;> simp

/-- What the lazy initialisation leaves on the GPU: nothing new when the flag was set; else the
vertex list, and the index list too unless it is empty. -/
theorem lazyInit_gpu {K : Type} (env : CubeEnv) (c : CubeBatch K) (g : GpuBuffers K) :
    (c.m_cube_buffers_initialized = true → (c.lazyInit env).2 = []) ∧
    (c.m_cube_buffers_initialized = false → c.m_indices ≠ [] →
      g.run (c.lazyInit env).2 =
        { vertices := some c.m_vertices, indices := some c.m_indices }) := by
  constructor
  · intro h
    simp [CubeBatch.lazyInit, h]
  · intro h hne
    have hne' : c.m_indices.isEmpty = false := by
      cases hl : c.m_indices with
      | nil => exact absurd hl hne
      | cons a l => rfl
    simp only [CubeBatch.lazyInit, CubeBatch.InitBuffers, h, hne', Bool.not_false, if_true,
      Bool.false_eq_true, if_false]
    split_ifs <;> simp [GpuBuffers.run, GpuBuffers.step]

theorem inSync_of_uploaded {K : Type} (c : CubeBatch K) (g : GpuBuffers K)
    (h : c.Uploaded g) (hne : c.m_indices ≠ []) : g.inSync c.m_indices.length = true := by
  obtain ⟨hi, vs, hv, hlt⟩ := h.2 hne
  simp only [GpuBuffers.inSync, hi, hv, decide_True, Bool.true_and, List.all_eq_true,
    decide_eq_true_eq]
  exact hlt

/-- One `Draw` on a batch whose flag is still down and whose indices are all below its vertex
count: the draw, if any, finds the buffers just uploaded. -/
theorem Draw_first {K : Type} (env : CubeEnv) (c : CubeBatch K) (g : GpuBuffers K)
    (hflag : c.m_cube_buffers_initialized = false)
    (hidx : ∀ i ∈ c.m_indices, i < c.m_vertices.length) :
    drawsInSync g (c.Draw env).calls = true ∧
    (c.Draw env).batch.Uploaded (g.run (c.Draw env).calls) ∧
    (c.Draw env).batch.m_indices = c.m_indices := by
  have hf := lazyInit_fields env (c.afterPrimitiveDraw env)
  have hflag0 : (c.afterPrimitiveDraw env).m_cube_buffers_initialized = false := hflag
  have hi0 : (c.afterPrimitiveDraw env).m_indices = c.m_indices := rfl
  have hv0 : (c.afterPrimitiveDraw env).m_vertices = c.m_vertices := rfl
  have hnd := lazyInit_no_draw env (c.afterPrimitiveDraw env)
  have hup : ((c.afterPrimitiveDraw env).lazyInit env).1.m_cube_buffers_initialized = true := by
    cases hb : ((c.afterPrimitiveDraw env).lazyInit env).1.m_cube_buffers_initialized with
    | true => rfl
    | false => exact absurd hflag0 (fun h => hf.2.2 hb h)
  rw [Draw_batch]
  refine ⟨?_, ?_, by rw [hf.1, hi0]⟩
  · rcases Draw_calls env c with ⟨_, _, h3, hc⟩ | ⟨_, hc⟩
    · rw [hc, List.cons_append]
      simp only [drawsInSync]
      rw [drawsInSync_append, drawsInSync_of_no_draw _ _ hnd, Bool.true_and]
      simp only [drawsInSync, GpuBuffers.step, Bool.and_true]
      rw [hf.1, hi0] at h3 ⊢
      rw [(lazyInit_gpu env (c.afterPrimitiveDraw env) _).2 hflag0 (by rw [hi0]; exact h3)]
      simp only [GpuBuffers.inSync, hi0, hv0, decide_True, Bool.true_and, List.all_eq_true,
        decide_eq_true_eq]
      exact hidx
    · rw [hc]
      apply drawsInSync_of_no_draw
      intro n hn
      simp at hn
      exact hnd n hn
  · refine ⟨hup, ?_⟩
    intro hne
    rw [hf.1, hi0] at hne ⊢
    have hrun : (g.run (c.Draw env).calls) =
        { vertices := some c.m_vertices, indices := some c.m_indices } := by
      have hl := (lazyInit_gpu env (c.afterPrimitiveDraw env)
        (g.run [CubeCall.primitiveDraw])).2 hflag0 (by rw [hi0]; exact hne)
      rw [hi0, hv0] at hl
      rcases Draw_calls env c with ⟨_, _, _, hc⟩ | ⟨_, hc⟩
      · rw [hc, List.cons_append, ← List.singleton_append, gpu_run_append, gpu_run_append, hl]
        rfl
      · rw [hc, List.cons_append, ← List.singleton_append, gpu_run_append, gpu_run_append, hl]
        rfl
    rw [hrun]
    exact ⟨rfl, c.m_vertices, rfl, hidx⟩

/-- One `Draw` on a batch whose buffers are uploaded: nothing is uploaded again and the draw,
if any, finds them. -/
theorem Draw_again {K : Type} (env : CubeEnv) (c : CubeBatch K) (g : GpuBuffers K)
    (h : c.Uploaded g) :
    drawsInSync g (c.Draw env).calls = true ∧
    (c.Draw env).batch.Uploaded (g.run (c.Draw env).calls) ∧
    (c.Draw env).batch.m_indices = c.m_indices := by
  have hflag0 : (c.afterPrimitiveDraw env).m_cube_buffers_initialized = true := h.1
  have hl : (c.afterPrimitiveDraw env).lazyInit env = (c.afterPrimitiveDraw env, []) := by
    simp [CubeBatch.lazyInit, hflag0]
  have hcalls := Draw_calls env c
  rw [hl] at hcalls
  have hb : (c.Draw env).batch = c.afterPrimitiveDraw env := by rw [Draw_batch, hl]
  have hi0 : (c.afterPrimitiveDraw env).m_indices = c.m_indices := rfl
  simp only [hi0, List.cons_append, List.nil_append] at hcalls
  rcases hcalls with ⟨_, _, h3, hc⟩ | ⟨_, hc⟩
  · refine ⟨?_, ?_, by rw [hb, hi0]⟩
    · rw [hc]
      simp only [drawsInSync, GpuBuffers.step, Bool.and_true]
      exact inSync_of_uploaded c g h h3
    · rw [hb, hc]
      exact h
  · refine ⟨?_, ?_, by rw [hb, hi0]⟩
    · rw [hc]; rfl
    · rw [hb, hc]
      exact h

theorem run_draws_uploaded {K : Type} [Field K] (fl : K → K) (env : CubeEnv) (m : Nat) :
    ∀ (c : CubeBatch K) (g : GpuBuffers K), c.Uploaded g →
      drawsInSync g (CubeBatch.run fl env c (List.replicate m CubeOp.Draw)).2 = true := by
  induction m with
  | zero => intro c g _; rfl
  | succ m ih =>
    intro c g h
    obtain ⟨h1, h2, _⟩ := Draw_again env c g h
    simp only [List.replicate_succ, CubeBatch.run]
    rw [drawsInSync_append, h1, Bool.true_and]
    exact ih _ _ h2

theorem run_addCubes {K : Type} [Field K] (fl : K → K) (env : CubeEnv) (cubes : List (Cube K))
    (ops : List (CubeOp K)) :
    ∀ c : CubeBatch K,
      CubeBatch.run fl env c (cubes.map CubeOp.AddCube ++ ops) =
        CubeBatch.run fl env (c.addCubes fl cubes) ops := by
  induction cubes with
  | nil => intro c; rfl
  | cons q qs ih =>
    intro c
    have h1 : CubeBatch.run fl env c (List.map CubeOp.AddCube (q :: qs) ++ ops) =
        CubeBatch.run fl env (c.AddCube fl q.position q.size q.color)
          (List.map CubeOp.AddCube qs ++ ops) := rfl
    rw [h1, ih]
    rfl

theorem addCubes_flag {K : Type} [Field K] (fl : K → K) (cubes : List (Cube K)) :
    ∀ c : CubeBatch K,
      (c.addCubes fl cubes).m_cube_buffers_initialized = c.m_cube_buffers_initialized := by
  induction cubes with
  | nil => intro c; rfl
  | cons q qs ih =>
    intro c
    have : c.addCubes fl (q :: qs) = (c.AddCube fl q.position q.size q.color).addCubes fl qs := rfl
    rw [this, ih]
    rfl

theorem addCubes_indices_lt {K : Type} [Field K] (fl : K → K) (vao vbo ebo : Nat) (cubes : List (Cube K)) :
    ∀ i ∈ ((CubeBatch.new vao vbo ebo : CubeBatch K).addCubes fl cubes).m_indices,
      i < ((CubeBatch.new vao vbo ebo : CubeBatch K).addCubes fl cubes).m_vertices.length := by
  obtain ⟨hv, hi⟩ := addCubes_from_new fl vao vbo ebo cubes
  intro i him
  rw [hi] at him
  rw [hv]
  obtain ⟨k, hkr, rfl⟩ := List.mem_map.mp him
  exact lt_of_le_of_lt (Nat.mod_le _ _) (List.mem_range.mp hkr)

/-- C18, as the code behaves: when every `AddCube` call comes before the first `Draw`, each
`glDrawElements` submitted by any later `Draw` has as count the number of indices in the element
buffer uploaded by `InitBuffers`, and the uploaded vertex buffer holds every vertex those
indices reference. -/
theorem C18_draws_in_sync_when_cubes_first {K : Type} [Field K] (fl : K → K) (env : CubeEnv)
    (vao vbo ebo : Nat) (cubes : List (Cube K)) (m : Nat) :
    drawsInSync { vertices := none, indices := none }
      (CubeBatch.run fl env (CubeBatch.new vao vbo ebo)
        (cubes.map CubeOp.AddCube ++ List.replicate m CubeOp.Draw)).2 = true := by
  rw [run_addCubes]
  have hidx := @addCubes_indices_lt K _ fl vao vbo ebo cubes
  have hflag : ((CubeBatch.new vao vbo ebo : CubeBatch K).addCubes fl
      cubes).m_cube_buffers_initialized = false := by
    rw [addCubes_flag]; rfl
  cases m with
  | zero => rfl
  | succ m =>
    obtain ⟨h1, h2, _⟩ := Draw_first env _ { vertices := none, indices := none } hflag hidx
    simp only [List.replicate_succ, CubeBatch.run]
    rw [drawsInSync_append, h1, Bool.true_and]
    exact run_draws_uploaded fl env m _ _ h2

/-- C18 as stated fails: add a cube, draw, add a second cube, draw again.  The first `Draw`
uploads 36 indices and sets the flag; the second `AddCube` grows the lists to 72 without any
upload; the second `Draw` submits `glDrawElements` with count 72 against an element buffer of
36 indices. -/
theorem C18_counterexample_stale_buffers :
    CubeCall.drawElements 72 ∈
      (CubeBatch.run roundFloat32 sampleCubeEnv (CubeBatch.new 0 0 0 : CubeBatch ℚ)
        [CubeOp.AddCube sampleCube, CubeOp.Draw, CubeOp.AddCube sampleCube, CubeOp.Draw]).2 ∧
    (uploadedIndexCounts (CubeBatch.run roundFloat32 sampleCubeEnv (CubeBatch.new 0 0 0 : CubeBatch ℚ)
        [CubeOp.AddCube sampleCube, CubeOp.Draw, CubeOp.AddCube sampleCube, CubeOp.Draw]).2)
      = [36] ∧
    drawsInSync { vertices := none, indices := none }
      (CubeBatch.run roundFloat32 sampleCubeEnv (CubeBatch.new 0 0 0 : CubeBatch ℚ)
        [CubeOp.AddCube sampleCube, CubeOp.Draw, CubeOp.AddCube sampleCube, CubeOp.Draw]).2
      = false := by
  decide

/-- Drawing the empty batch first, then adding a cube and drawing: the first `Draw` sets the
flag although `InitBuffers` returned before the index upload, so the second `Draw` submits 36
indices against an element buffer that was never uploaded. -/
theorem Draw_before_AddCube_sample :
    CubeCall.drawElements 36 ∈
      (CubeBatch.run roundFloat32 sampleCubeEnv (CubeBatch.new 0 0 0 : CubeBatch ℚ)
        [CubeOp.Draw, CubeOp.AddCube sampleCube, CubeOp.Draw]).2 ∧
    uploadedIndexCounts (CubeBatch.run roundFloat32 sampleCubeEnv (CubeBatch.new 0 0 0 : CubeBatch ℚ)
        [CubeOp.Draw, CubeOp.AddCube sampleCube, CubeOp.Draw]).2 = [] := by
  decide

end Hex
